import Mathlib

/-!
Shallow embedding of the concurrency-controlled query cache engine of the
dalgurak repository (`src/ai/core/cache.py`, `src/ai/core/rag_engine.py`,
`src/ai/core/async_handler.py`), together with theorems settling the frozen
claims about it.

Modelling conventions:
* Python `time.time()` timestamps are modelled as exact rationals (`ℚ`);
  every `time.time()` call made inside one method invocation is modelled as
  returning the same instant `t`, which is passed in as an explicit argument
  (the claims under study never depend on intra-call clock drift).
* Python `dict` is modelled as an insertion-ordered association list with
  distinct keys; overwriting a key keeps its position, new keys are appended,
  exactly as CPython 3.7+ dicts behave.
* External collaborators (hashlib.md5, the Chroma vector store, the LangChain
  QA chain, the OpenAI embedder) are parameters of the model, bundled in the
  `Collab` structure; a fallible collaborator returns `Except String _`,
  the `.error` case standing for a raised exception.
* Text processing is done over `List Char`; `str.lower` is modelled with
  `Char.toLower` (identity on the Korean keywords involved, standard on
  ASCII), `round(x, 2)` with exact half-to-even rounding on `ℚ`.
-/

/-! ### Basic text utilities (List Char level) -/

/-- `needle` occurs at the head of `hay` (list version of `startswith`). -/
def charSeqPrefix : List Char → List Char → Bool
  | [], _ => true
  | _ :: _, [] => false
  | a :: as, b :: bs => a == b && charSeqPrefix as bs

/-- Python's `needle in hay` substring test, over character lists. -/
def containsSeq (needle : List Char) : List Char → Bool
  | [] => needle.isEmpty
  | c :: t => charSeqPrefix needle (c :: t) || containsSeq needle t

/-- Substring test on strings: Python `kw in text`. -/
def strContains (text kw : String) : Bool :=
  containsSeq kw.toList text.toList

/-- Python `text.lower()` (ASCII case folding; Korean characters have no
case and are untouched, as in Python). -/
def pyLower (s : String) : String :=
  String.mk (s.toList.map Char.toLower)

/-- Python `text.split('\n\n')` specialised to the blank-line separator used
by `_calculate_quality_metrics`: left-to-right, non-overlapping splits. -/
def splitParas : List Char → List Char → List (List Char)
  | '\n' :: '\n' :: rest, acc => acc.reverse :: splitParas rest []
  | c :: rest, acc => splitParas rest (c :: acc)
  | [], acc => [acc.reverse]

/-- The regex `\d+\.|\d+\)` of `_calculate_quality_metrics` finds a match
iff some digit is immediately followed by `.` or `)`. -/
def hasDigitEnum : List Char → Bool
  | a :: b :: rest => (a.isDigit && (b == '.' || b == ')')) || hasDigitEnum (b :: rest)
  | _ => false

/-- The regex `[-•*]` of `_calculate_quality_metrics`. -/
def hasBulletChar (l : List Char) : Bool :=
  l.any (fun c => c == '-' || c == '•' || c == '*')

/-- Python `str.strip()` yields the empty string iff every character is
whitespace; this is the `not question.strip()` emptiness test. -/
def pyStripEmpty (s : String) : Bool :=
  s.toList.all Char.isWhitespace

/-- Python `str.split()` (split on whitespace runs, dropping empty pieces). -/
def pySplitWs (s : String) : List String :=
  (s.toList.splitOnP Char.isWhitespace).map String.mk |>.filter (fun w => w ≠ "")

/-- Python `str.strip()` (used on retrieved document contents). -/
def pyStrip (s : String) : String :=
  String.mk ((s.toList.dropWhile Char.isWhitespace).reverse.dropWhile Char.isWhitespace |>.reverse)

/-- Left-biased deduplication, the order-insensitive part of Python `set(...)`:
`w` is counted once however often it occurs. -/
def distinctWords : List String → List String
  | [] => []
  | w :: rest => if rest.contains w then distinctWords rest else w :: distinctWords rest

/-- Python `round(x, 2)`: exact round-half-to-even at two decimal places
(CPython's `round` on floats is round-half-to-even; we model it exactly
over `ℚ`). -/
def round2 (x : ℚ) : ℚ :=
  let y := x * 100
  let f : ℤ := ⌊y⌋
  let r := y - f
  let n : ℤ := if r < 1/2 then f else if 1/2 < r then f + 1 else if f % 2 = 0 then f else f + 1
  (n : ℚ) / 100

/-! ### `OptimizedCache` (src/ai/core/cache.py) -/

/-- One slot of `OptimizedCache._cache`: the dict
`\x7b'value': value, 'timestamp': time.time()\x7d`. -/
structure CacheEntry (α : Type) where
  value : α
  timestamp : ℚ
  deriving Repr, DecidableEq

/-- `OptimizedCache(maxsize, ttl)` with its insertion-ordered `_cache` dict. -/
structure OptimizedCache (α : Type) where
  cache : List (String × CacheEntry α)
  maxsize : ℕ
  ttl : ℚ
  deriving Repr, DecidableEq

/-- A fresh cache, as built by `OptimizedCache.__init__`. -/
def emptyCache (α : Type) (maxsize : ℕ) (ttl : ℚ) : OptimizedCache α :=
  ⟨[], maxsize, ttl⟩

/-- Python dict assignment `self._cache[key] = entry`: overwrite in place if
the key is present (keeping its position), otherwise append. -/
def setRaw {α : Type} (l : List (String × CacheEntry α)) (k : String)
    (e : CacheEntry α) : List (String × CacheEntry α) :=
  if l.any (fun p => p.1 == k) then
    l.map (fun p => if p.1 == k then (k, e) else p)
  else l ++ [(k, e)]

/-- `min(self._cache.keys(), key=lambda k: self._cache[k]['timestamp'])`:
Python `min` scans in dict (insertion) order and keeps the earliest entry
among timestamp ties, because it only replaces on strict `<`. -/
def oldestEntry {α : Type} : List (String × CacheEntry α) → Option (String × CacheEntry α)
  | [] => none
  | p :: rest =>
    some (rest.foldl (fun best q => if q.2.timestamp < best.2.timestamp then q else best) p)

/-- `OptimizedCache._cleanup_oldest`. -/
def OptimizedCache.cleanupOldest {α : Type} (c : OptimizedCache α) : OptimizedCache α :=
  match oldestEntry c.cache with
  | none => c
  | some p => { c with cache := c.cache.eraseP (fun q => q.1 == p.1) }

/-- `OptimizedCache.set` (also `__setitem__`, whose body is identical):
store the entry with `written_at = now`, then evict the globally oldest
entry if the raw dict size exceeds `maxsize`. -/
def OptimizedCache.set {α : Type} (c : OptimizedCache α) (k : String) (v : α)
    (now : ℚ) : OptimizedCache α :=
  let c' : OptimizedCache α := { c with cache := setRaw c.cache k ⟨v, now⟩ }
  if c'.cache.length > c.maxsize then c'.cleanupOldest else c'

/-- `OptimizedCache.get`: `none` stands for returning the caller's `default`.
An expired entry is deleted as a side effect. -/
def OptimizedCache.get {α : Type} (c : OptimizedCache α) (k : String)
    (now : ℚ) : Option α × OptimizedCache α :=
  match c.cache.lookup k with
  | some e =>
    if now - e.timestamp < c.ttl then (some e.value, c)
    else (none, { c with cache := c.cache.eraseP (fun p => p.1 == k) })
  | none => (none, c)

/-- `OptimizedCache.__contains__` (the `in` operator), with the same
delete-on-expired side effect as `get`. -/
def OptimizedCache.containsKey {α : Type} (c : OptimizedCache α) (k : String)
    (now : ℚ) : Bool × OptimizedCache α :=
  match c.cache.lookup k with
  | some e =>
    if now - e.timestamp < c.ttl then (true, c)
    else (false, { c with cache := c.cache.eraseP (fun p => p.1 == k) })
  | none => (false, c)

/-- `OptimizedCache.__getitem__`: `none` stands for raising `KeyError`. -/
def OptimizedCache.getItem {α : Type} (c : OptimizedCache α) (k : String)
    (now : ℚ) : Option α × OptimizedCache α :=
  match c.cache.lookup k with
  | some e =>
    if now - e.timestamp < c.ttl then (some e.value, c)
    else (none, { c with cache := c.cache.eraseP (fun p => p.1 == k) })
  | none => (none, c)

/-- `OptimizedCache.__len__`: only unexpired entries are counted. -/
def OptimizedCache.validLen {α : Type} (c : OptimizedCache α) (now : ℚ) : ℕ :=
  (c.cache.filter (fun p => now - p.2.timestamp < c.ttl)).length

/-- Folding `set` over a list of `(key, value, write-time)` triples. -/
def insertSeq {α : Type} (c : OptimizedCache α) : List (String × α × ℚ) → OptimizedCache α
  | [] => c
  | (k, v, t) :: rest => insertSeq (c.set k v t) rest

/-- The cache entry created for a `(key, value, write-time)` triple. -/
def entryOf {α : Type} (x : String × α × ℚ) : String × CacheEntry α :=
  (x.1, ⟨x.2.1, x.2.2⟩)

/-! ### Quality metrics (`OptimizedRecipeRAG._calculate_quality_metrics`) -/

/-- The three metric values returned by `_calculate_quality_metrics`
(`structureScore` models the `'structure'` key). -/
structure QMetrics where
  completeness : ℚ
  relevance : ℚ
  structureScore : ℚ
  deriving Repr, DecidableEq

/-- The all-zero metrics dict used on the error paths. -/
def zeroMetrics : QMetrics := ⟨0, 0, 0⟩

/-- `required_sections` of `_calculate_quality_metrics`: keyword groups for
the 재료 (ingredients), 조리 (procedure) and 팁 (tips) categories. -/
def requiredSections : List (List String) :=
  [["재료", "준비물", "필요한", "있어야"],
   ["조리", "만들기", "요리", "방법", "과정"],
   ["팁", "주의", "포인트", "중요", "비법"]]

/-- `relevance_keywords` of `_calculate_quality_metrics`, with their fixed
weights. -/
def relevanceKeywords : List (String × ℚ) :=
  [("요리", 1), ("레시피", 1), ("만들기", 0.9), ("조리법", 0.9), ("끓이기", 0.8),
   ("볶기", 0.8), ("굽기", 0.8), ("재료", 0.8), ("양념", 0.8), ("간", 0.7),
   ("맛", 0.7), ("음식", 0.7)]

/-- `matched_keywords`: the vocabulary entries whose term occurs in the
(lower-cased) text. -/
def matchedKeywords (text : String) : List (String × ℚ) :=
  relevanceKeywords.filter (fun p => strContains text p.1)

/-- `completeness` before rounding: the fraction of the three required
sections with at least one keyword hit. -/
def completenessRaw (text : String) : ℚ :=
  ((requiredSections.map
    (fun kws => if kws.any (fun kw => strContains text kw) then (1 : ℚ) else 0)).sum) / 3

/-- `relevance` before the `* 1.2` boost: the average weight of the matched
vocabulary terms, or `0` when none matched. -/
def relevanceRaw (text : String) : ℚ :=
  let matched := matchedKeywords text
  if matched.isEmpty then 0 else (matched.map Prod.snd).sum / matched.length

/-- `structure_points`: `+0.4` for an enumerated marker, `+0.3` for a bullet
character, `+0.3` for three or more blank-line-separated paragraphs. -/
def structurePoints (text : String) : ℚ :=
  (if hasDigitEnum text.toList then (0.4 : ℚ) else 0)
  + (if hasBulletChar text.toList then (0.3 : ℚ) else 0)
  + (if (splitParas text.toList []).length ≥ 3 then (0.3 : ℚ) else 0)

/-- `OptimizedRecipeRAG._calculate_quality_metrics` (total: its internal
`try/except` is unreachable for string input). -/
def calculateQualityMetrics (response : String) : QMetrics :=
  let text := pyLower response
  ⟨round2 (completenessRaw text),
   round2 (min (relevanceRaw text * 1.2) 1),
   round2 (min (structurePoints text) 1)⟩

/-! ### Result dictionaries and engine state (src/ai/core/rag_engine.py) -/

mutual

/-- A value stored in `response_cache`: either a plain answer/context string
(sync path, context writes) or a whole result dict (`ask_async` stores
`result.copy()`). -/
inductive CacheVal : Type where
  | str (s : String)
  | dict (r : ResultDict)

/-- A Python result dict. Each field models one key; `none` means the key is
absent from the dict (several paths build dicts with different key sets). -/
inductive ResultDict : Type where
  | mk (answer : Option CacheVal) (executionTime : Option ℚ)
      (qualityMetrics : Option QMetrics) (source : Option String)
      (error : Option String) (contextLength : Option ℕ)
      (sourceDocuments : Option (List String)) (status : Option String)
      (timestamp : Option ℚ)

end

def ResultDict.answer : ResultDict → Option CacheVal
  | .mk a _ _ _ _ _ _ _ _ => a

def ResultDict.executionTime : ResultDict → Option ℚ
  | .mk _ x _ _ _ _ _ _ _ => x

def ResultDict.qualityMetrics : ResultDict → Option QMetrics
  | .mk _ _ x _ _ _ _ _ _ => x

def ResultDict.source : ResultDict → Option String
  | .mk _ _ _ x _ _ _ _ _ => x

def ResultDict.error : ResultDict → Option String
  | .mk _ _ _ _ x _ _ _ _ => x

def ResultDict.contextLength : ResultDict → Option ℕ
  | .mk _ _ _ _ _ x _ _ _ => x

def ResultDict.sourceDocuments : ResultDict → Option (List String)
  | .mk _ _ _ _ _ _ x _ _ => x

def ResultDict.status : ResultDict → Option String
  | .mk _ _ _ _ _ _ _ x _ => x

def ResultDict.timestamp : ResultDict → Option ℚ
  | .mk _ _ _ _ _ _ _ _ x => x

/-- Python truthiness of a cached value (`if cached_response:`): an empty
string is falsy; the result dicts stored by this engine always carry keys,
hence are truthy. -/
def CacheVal.pyTruthy : CacheVal → Bool
  | .str s => !(s == "")
  | .dict _ => true

/-- The text handed to `_calculate_quality_metrics` when the sync path
re-scores a cached value. A dict-valued hit would be passed through
`str(response)`; the Python `repr` of a dict is not modelled (no claim
evaluates it), so it is mapped to `""`. -/
def CacheVal.asMetricsText : CacheVal → String
  | .str s => s
  | .dict _ => ""

/-- `ask_async`'s cache hit on a dict value:
`copy()` then `execution_time = 0.1` and `source = 'cache'`. -/
def ResultDict.withCacheHit : ResultDict → ResultDict
  | .mk a _ qm _ err cl docs status ts =>
    .mk a (some 0.1) qm (some "cache") err cl docs status ts

/-- The QA chain's response dict: `answer` models `response['answer']`
(`none` = the key is missing) and `sourceDocuments` models
`response.get('source_documents', [])`. -/
structure QAResp where
  answer : Option String
  sourceDocuments : List String

/-- External collaborators of the engine: `hashlib.md5(...).hexdigest()`,
`self.vectordb.similarity_search` (returning the `page_content` of each hit)
and `self.qa_chain.invoke`/`ainvoke`. A `.error e` result stands for a
raised exception with message `e`. -/
structure Collab where
  md5hash : String → String
  similaritySearch : String → Except String (List String)
  qaInvoke : String → String → Except String QAResp

/-- The mutable state of one `OptimizedRecipeRAG` instance. The embedding
cache stores the relevance scores written by `_check_relevance`; embedding
vectors are only written by `_compute_embedding`/`_compute_embedding_async`,
which the modelled entry points (`ask`, `ask_async`, `process_batch`) never
call. -/
structure RAGState where
  responseCache : OptimizedCache CacheVal
  embeddingCache : OptimizedCache ℚ
  requestCount : ℕ
  errorCount : ℕ
  cacheHits : ℕ
  executionTimes : List ℚ
  qualityHistory : List QMetrics

/-- The engine state right after `__init__` (both caches
`OptimizedCache(maxsize=5000, ttl=7200)`, counters zero; the precomputed
embedding load is modelled as empty). -/
def initialState : RAGState :=
  ⟨emptyCache CacheVal 5000 7200, emptyCache ℚ 5000 7200, 0, 0, 0, [], []⟩

/-- `_record_metrics`: appends to `metrics['execution_time']` and
`metrics['quality_scores']`. -/
def recordMetrics (st : RAGState) (execTime : ℚ) (qm : QMetrics) : RAGState :=
  { st with executionTimes := st.executionTimes ++ [execTime],
            qualityHistory := st.qualityHistory ++ [qm] }

/-! ### Context retrieval (`_get_context`, `_check_relevance`,
`_get_context_async`) -/

/-- The dedupe loop of `_get_context`: keep each stripped, non-empty,
not-yet-seen document content, in order. -/
def dedupeParts : List String → List String → List String
  | [], _ => []
  | doc :: rest, seen =>
    let content := pyStrip doc
    if content ≠ "" ∧ ¬ seen.contains content then
      content :: dedupeParts rest (content :: seen)
    else dedupeParts rest seen

/-- Python `"\n\n".join(parts)`. -/
def joinNN : List String → String
  | [] => ""
  | [p] => p
  | p :: rest => p ++ "\n\n" ++ joinNN rest

/-- `if len(context) > 1500: context = context[:1500]`. -/
def truncate1500 (s : String) : String :=
  if s.length > 1500 then String.mk (s.toList.take 1500) else s

/-- `_get_context` (sync): no cache, no relevance filter; its internal
`try/except` turns a similarity-search failure into `""`. -/
def getContext (collab : Collab) (q : String) : String :=
  match collab.similaritySearch q with
  | .error _ => ""
  | .ok docs => truncate1500 (joinNN (dedupeParts docs []))

/-- `cooking_keywords` of `_check_relevance` (note: a different table from
`relevance_keywords` in `_calculate_quality_metrics`). -/
def cookingKeywords : List (String × ℚ) :=
  [("레시피", 1), ("요리", 1), ("만들기", 0.8), ("재료", 0.9), ("조리", 0.9),
   ("끓이기", 0.7), ("볶기", 0.7), ("굽기", 0.7), ("찌기", 0.7), ("양념", 0.8),
   ("간", 0.6), ("맛", 0.6)]

/-- `_check_relevance(content, query)`: score cached in the embedding cache
under `"relevance_" + md5(content + query)`; keyword hits are exact-word
(set membership over whitespace-split words), normalised by the total
vocabulary weight, mixed 0.7/0.3 with the query-word overlap ratio. -/
def checkRelevance (collab : Collab) (st : RAGState) (content q : String)
    (t : ℚ) : ℚ × RAGState :=
  let key := "relevance_" ++ collab.md5hash (content ++ q)
  let res := st.embeddingCache.get key t
  let st₁ := { st with embeddingCache := res.2 }
  match res.1 with
  | some r => (r, st₁)
  | none =>
    let contentWords := pySplitWs (pyLower content)
    let queryWords := pySplitWs (pyLower q)
    let keywordScore :=
      ((cookingKeywords.filter (fun p => contentWords.contains p.1)).map Prod.snd).sum
    let maxKeywordScore := ((cookingKeywords.map Prod.snd)).sum
    let normalizedKeywordScore :=
      if maxKeywordScore > 0 then keywordScore / maxKeywordScore else 0
    let commonCount :=
      ((distinctWords queryWords).filter (fun w => contentWords.contains w)).length
    let queryMatchScore :=
      if queryWords.isEmpty then 0
      else (commonCount : ℚ) / ((distinctWords queryWords).length : ℚ)
    let finalScore := min (normalizedKeywordScore * 0.7 + queryMatchScore * 0.3) 1
    let st₂ := { st₁ with embeddingCache := st₁.embeddingCache.set key finalScore t }
    (finalScore, st₂)

/-- The filter loop of `_get_context_async`: keep a stripped, non-empty,
unseen content only when `_check_relevance` scores it at least `0.3`
(the `seen` set also grows only in that branch, as in the source). -/
def filterParts (collab : Collab) (q : String) (t : ℚ) :
    List String → List String → RAGState → List String × RAGState
  | [], _, st => ([], st)
  | doc :: rest, seen, st =>
    let content := pyStrip doc
    if content ≠ "" ∧ ¬ seen.contains content then
      let res := checkRelevance collab st content q t
      if res.1 ≥ 0.3 then
        let res' := filterParts collab q t rest (content :: seen) res.2
        (content :: res'.1, res'.2)
      else filterParts collab q t rest seen res.2
    else filterParts collab q t rest seen st

/-- `_get_context_async`: context cached in the ANSWER cache
(`response_cache`) under `"context_" + md5(question)`; on a miss, the
filtered-join-truncated context (with the single-best-document fallback) is
written back under that key. A similarity-search failure is caught and
yields `""`. The two unreachable hit sub-cases (a dict-valued context, or a
`__getitem__` miss at the very instant `__contains__` succeeded) are mapped
to `""`. -/
def getContextAsync (collab : Collab) (st : RAGState) (q : String) (t : ℚ) :
    String × RAGState :=
  let ckey := "context_" ++ collab.md5hash q
  let chk := st.responseCache.containsKey ckey t
  let st₁ := { st with responseCache := chk.2 }
  if chk.1 then
    let st₂ := { st₁ with cacheHits := st₁.cacheHits + 1 }
    let gi := st₂.responseCache.getItem ckey t
    let st₃ := { st₂ with responseCache := gi.2 }
    match gi.1 with
    | some (.str s) => (s, st₃)
    | some (.dict _) => ("", st₃)
    | none => ("", st₃)
  else
    match collab.similaritySearch q with
    | .error _ => ("", st₁)
    | .ok docs =>
      let fp := filterParts collab q t docs [] st₁
      let context := truncate1500 (joinNN fp.1)
      let context' := if context = "" ∧ ¬ docs.isEmpty then docs.headD "" else context
      let st₂ := { fp.2 with responseCache := fp.2.responseCache.set ckey (.str context') t }
      (context', st₂)

/-! ### Query entry points (`ask`, `ask_async`, `process_batch`) -/

/-- The apology string built by `ask`'s `except` clause. -/
def syncErrorAnswer (e : String) : String :=
  "죄송합니다. 오류가 발생했습니다: " ++ e

/-- The error dict returned by `ask`'s `except` clause: answer, execution
time, zeroed metrics and the failure message — note there is NO `source`
key on this path. -/
def syncErrorResult (e : String) : ResultDict :=
  .mk (some (.str (syncErrorAnswer e))) (some 0) (some zeroMetrics) none (some e)
    none none none none

/-- The error dict returned by `ask_async`'s `except` clause, which DOES
carry `source = 'error'`. -/
def asyncErrorResult (e : String) : ResultDict :=
  .mk (some (.str "죄송합니다. 응답 생성 중 오류가 발생했습니다.")) (some 0)
    (some zeroMetrics) (some "error") (some e) none none none none

/-- The `source = 'empty'` dict returned by `ask_async` for a blank
question. -/
def emptyQuestionResult : ResultDict :=
  .mk (some (.str "질문을 입력해주세요.")) (some 0) (some zeroMetrics) (some "empty")
    none none none none none

/-- The direct (non-cache) tail of `OptimizedRecipeRAG.ask`, entered when the
cache lookup returned a falsy value: fetch context, invoke the QA chain,
fail on an empty answer, score, and cache the answer ONLY when
`completeness >= 0.5 and relevance >= 0.5`. -/
def askDirect (collab : Collab) (st₁ : RAGState) (q ckey : String) (t : ℚ) :
    ResultDict × RAGState :=
  let context := getContext collab q
  match collab.qaInvoke q context with
  | .error e =>
    ((syncErrorResult e), { st₁ with errorCount := st₁.errorCount + 1 })
  | .ok resp =>
    let answer := resp.answer.getD ""
    if answer = "" then
      ((syncErrorResult "Empty response from QA chain"),
        { st₁ with errorCount := st₁.errorCount + 1 })
    else
      let qm := calculateQualityMetrics answer
      let st₂ :=
        if qm.completeness ≥ 0.5 ∧ qm.relevance ≥ 0.5 then
          { st₁ with responseCache := st₁.responseCache.set ckey (.str answer) t }
        else st₁
      let st₃ := recordMetrics st₂ 0 qm
      (.mk (some (.str answer)) (some 0) (some qm) (some "direct") none
        (some context.length) none none none, st₃)

/-- `OptimizedRecipeRAG.ask` (the synchronous entry point). There is NO
empty-question check: every call first increments `request_count`, then
tries the answer cache (`get`, with Python truthiness on the value), and
otherwise runs the full pipeline. -/
def ask (collab : Collab) (st : RAGState) (q : String) (t : ℚ) :
    ResultDict × RAGState :=
  let st₀ := { st with requestCount := st.requestCount + 1 }
  let ckey := collab.md5hash q
  let res := st₀.responseCache.get ckey t
  let st₁ := { st₀ with responseCache := res.2 }
  match res.1 with
  | some v =>
    if v.pyTruthy then
      let st₂ := { st₁ with cacheHits := st₁.cacheHits + 1 }
      (.mk (some v) (some 0) (some (calculateQualityMetrics v.asMetricsText))
        (some "cache") none none none none none, st₂)
    else askDirect collab st₁ q ckey t
  | none => askDirect collab st₁ q ckey t

/-- `OptimizedRecipeRAG.ask_async`. A blank question returns the
`source = 'empty'` dict BEFORE `request_count` is incremented; a cache hit
(via `in` then `[]`) returns the stored value with `source = 'cache'`; the
direct path caches `result.copy()` UNCONDITIONALLY (no quality gate); any
exception in the `try` block yields the `source = 'error'` dict and bumps
`error_count`. -/
def askAsync (collab : Collab) (st : RAGState) (q : String) (t : ℚ) :
    ResultDict × RAGState :=
  if pyStripEmpty q then (emptyQuestionResult, st)
  else
    let st₀ := { st with requestCount := st.requestCount + 1 }
    let ckey := collab.md5hash q
    let chk := st₀.responseCache.containsKey ckey t
    let st₁ := { st₀ with responseCache := chk.2 }
    if chk.1 then
      let st₂ := { st₁ with cacheHits := st₁.cacheHits + 1 }
      let gi := st₂.responseCache.getItem ckey t
      let st₃ := { st₂ with responseCache := gi.2 }
      match gi.1 with
      | some (.dict r) => (r.withCacheHit, st₃)
      | some (.str s) =>
        (.mk (some (.str s)) (some 0.1) (some (calculateQualityMetrics s))
          (some "cache") none none none none none, st₃)
      | none =>
        ((asyncErrorResult ckey), { st₃ with errorCount := st₃.errorCount + 1 })
    else
      let gc := getContextAsync collab st₁ q t
      match collab.qaInvoke q gc.1 with
      | .error e =>
        ((asyncErrorResult e), { gc.2 with errorCount := gc.2.errorCount + 1 })
      | .ok resp =>
        match resp.answer with
        | none =>
          ((asyncErrorResult "answer"), { gc.2 with errorCount := gc.2.errorCount + 1 })
        | some answer =>
          let qm := calculateQualityMetrics answer
          let result : ResultDict :=
            .mk (some (.str answer)) (some 0) (some qm) (some "direct") none none
              (some resp.sourceDocuments) none none
          let st₃ := { gc.2 with responseCache := gc.2.responseCache.set ckey (.dict result) t }
          (result, recordMetrics st₃ 0 qm)

/-- `OptimizedRecipeRAG.process_batch`: `asyncio.gather` over
`ask_async(q)` tasks joins results positionally (input order, whatever the
completion order); the cooperative interleaving over the shared caches is
modelled as one sequential schedule. -/
def ragProcessBatch (collab : Collab) (st : RAGState) (qs : List String)
    (t : ℚ) : List ResultDict × RAGState :=
  match qs with
  | [] => ([], st)
  | q :: rest =>
    let r := askAsync collab st q t
    let rs := ragProcessBatch collab r.2 rest t
    (r.1 :: rs.1, rs.2)

/-! ### `AsyncRequestHandler` (src/ai/core/async_handler.py) -/

/-- The shared rate-limiter state: `_last_request_time` and
`_request_times`. -/
structure RateLimiterState where
  lastRequestTime : ℚ
  requestTimes : List ℚ

/-- The error dict built by `process_request`'s `except` clause:
`\x7b"error": str(e), "status": "error"\x7d`. -/
def requestErrorResult (e : String) : ResultDict :=
  .mk none none none none (some e) none none (some "error") none

/-- The error entry substituted by `process_batch` for an exception returned
by `asyncio.gather(..., return_exceptions=True)`:
`\x7b"error": str(result), "status": "error", "timestamp": time.time()\x7d`. -/
def batchErrorEntry (e : String) (t : ℚ) : ResultDict :=
  .mk none none none none (some e) none none (some "error") (some t)

/-- One admitted run of `AsyncRequestHandler.process_request`, observed
sequentially. `now` is the clock on admission, `handlerDuration` the time
`_handle_request` takes, `handlerOutcome` its result or exception. The
fields record when the handler body starts, the shared `_last_request_time`
and `_request_times` after the run, the returned dict, and that the
semaphore slot is released (the `async with` block is left on success and
failure alike). Note the source updates `_last_request_time` AFTER
`_handle_request` returns — to the completion time — and only on success. -/
structure PRRun where
  execStart : ℚ
  lastAfter : ℚ
  requestTimesAfter : List ℚ
  output : ResultDict
  slotReleased : Bool

def processRequest (rateLimit : ℚ) (rl : RateLimiterState) (now : ℚ)
    (handlerDuration : ℚ) (handlerOutcome : Except String ResultDict) : PRRun :=
  let minDelay := 1 / rateLimit
  let timeSinceLast := now - rl.lastRequestTime
  let sleepFor := if timeSinceLast < minDelay then minDelay - timeSinceLast else 0
  let execStart := now + sleepFor
  match handlerOutcome with
  | .ok r =>
    let completion := execStart + handlerDuration
    ⟨execStart, completion, rl.requestTimes ++ [completion], r, true⟩
  | .error e =>
    ⟨execStart, rl.lastRequestTime, rl.requestTimes, requestErrorResult e, true⟩

/-- The per-item post-processing of `AsyncRequestHandler.process_batch`:
`asyncio.gather(..., return_exceptions=True)` yields, positionally, either a
task's result or the exception it raised; exceptions are replaced by
error-status entries in place. -/
def handlerBatchConvert (t : ℚ) (outcomes : List (Except String ResultDict)) :
    List ResultDict :=
  outcomes.map (fun o =>
    match o with
    | .ok r => r
    | .error e => batchErrorEntry e t)

/-- A concrete collaborator assembly for witnesses and counterexamples: the
hash is the injective `"h" ++ ·`, the vector store returns no documents, and
the QA chain behaves as `qa`. -/
def hashCollab (qa : String → String → Except String QAResp) : Collab :=
  ⟨fun s => "h" ++ s, fun _ => .ok [], qa⟩

/-! ### Association-list lemmas -/

theorem lookup_some_mem {α : Type} {l : List (String × CacheEntry α)} {k : String}
    {e : CacheEntry α} (h : l.lookup k = some e) : (k, e) ∈ l := by
  induction l with
  | nil => simp [List.lookup] at h
  | cons a t ih =>
    obtain ⟨k', e'⟩ := a
    by_cases hk : k = k'
    · subst hk
      simp [List.lookup] at h
      subst h
      exact List.mem_cons_self _ _
    · simp [List.lookup, beq_false_of_ne hk] at h
      exact List.mem_cons_of_mem _ (ih h)

theorem lookup_none_of_not_mem_keys {α : Type} {l : List (String × CacheEntry α)}
    {k : String} (h : k ∉ l.map Prod.fst) : l.lookup k = none := by
  induction l with
  | nil => rfl
  | cons a t ih =>
    obtain ⟨k', e'⟩ := a
    simp only [List.map_cons, List.mem_cons, not_or] at h
    simp only [List.lookup, beq_false_of_ne h.1]
    exact ih h.2

theorem any_key_false_of_lookup_none {α : Type} {l : List (String × CacheEntry α)}
    {k : String} (h : l.lookup k = none) : l.any (fun p => p.1 == k) = false := by
  induction l with
  | nil => rfl
  | cons a t ih =>
    obtain ⟨k', e'⟩ := a
    by_cases hk : k = k'
    · subst hk
      simp [List.lookup] at h
    · simp only [List.lookup, beq_false_of_ne hk] at h
      simp [List.any_cons, beq_false_of_ne (fun hc => hk hc.symm), ih h]

theorem eraseP_key_decomp {α : Type} {l : List (String × CacheEntry α)}
    {p : String × CacheEntry α} (hmem : p ∈ l) (hnd : (l.map Prod.fst).Nodup) :
    ∃ l₁ l₂, l = l₁ ++ p :: l₂ ∧ l.eraseP (fun q => q.1 == p.1) = l₁ ++ l₂ := by
  induction l with
  | nil => cases hmem
  | cons a t ih =>
    simp only [List.map_cons, List.nodup_cons] at hnd
    rcases List.mem_cons.mp hmem with h | h
    · subst h
      exact ⟨[], t, rfl, by simp [List.eraseP_cons]⟩
    · have hne : (a.1 == p.1) = false := by
        apply beq_false_of_ne
        intro hc
        exact hnd.1 (hc ▸ List.mem_map_of_mem Prod.fst h)
      obtain ⟨l₁, l₂, hdec, herase⟩ := ih h hnd.2
      refine ⟨a :: l₁, l₂, ?_, ?_⟩
      · rw [hdec]
        rfl
      · simp [List.eraseP_cons, hne, herase]

theorem foldlMin_spec {α : Type} (rest : List (String × CacheEntry α)) :
    ∀ a : String × CacheEntry α,
      ((rest.foldl (fun best q => if q.2.timestamp < best.2.timestamp then q else best) a) ∈ a :: rest)
      ∧ (rest.foldl (fun best q => if q.2.timestamp < best.2.timestamp then q else best) a).2.timestamp ≤ a.2.timestamp
      ∧ ∀ q ∈ rest, (rest.foldl (fun best q => if q.2.timestamp < best.2.timestamp then q else best) a).2.timestamp ≤ q.2.timestamp := by
  induction rest with
  | nil =>
    intro a
    exact ⟨List.mem_singleton.mpr rfl, le_refl _, fun q hq => absurd hq (List.not_mem_nil q)⟩
  | cons b t ih =>
    intro a
    simp only [List.foldl_cons]
    by_cases hb : b.2.timestamp < a.2.timestamp
    · rw [if_pos hb]
      obtain ⟨hmem, hle, hall⟩ := ih b
      refine ⟨?_, le_trans hle (le_of_lt hb), fun q hq => ?_⟩
      · rcases List.mem_cons.mp hmem with h' | h'
        · rw [h']
          exact List.mem_cons_of_mem _ (List.mem_cons_self _ _)
        · exact List.mem_cons_of_mem _ (List.mem_cons_of_mem _ h')
      · rcases List.mem_cons.mp hq with rfl | h'
        · exact hle
        · exact hall q h'
    · rw [if_neg hb]
      obtain ⟨hmem, hle, hall⟩ := ih a
      refine ⟨?_, hle, fun q hq => ?_⟩
      · rcases List.mem_cons.mp hmem with h' | h'
        · rw [h']
          exact List.mem_cons_self _ _
        · exact List.mem_cons_of_mem _ (List.mem_cons_of_mem _ h')
      · rcases List.mem_cons.mp hq with rfl | h'
        · exact le_trans hle (le_of_not_lt hb)
        · exact hall q h'

theorem oldestEntry_spec {α : Type} {l : List (String × CacheEntry α)}
    {p : String × CacheEntry α} (h : oldestEntry l = some p) :
    p ∈ l ∧ ∀ q ∈ l, p.2.timestamp ≤ q.2.timestamp := by
  cases l with
  | nil => cases h
  | cons a rest =>
    rw [oldestEntry] at h
    injection h with h'
    obtain ⟨hmem, hle, hall⟩ := foldlMin_spec rest a
    rw [h'] at hmem hle hall
    refine ⟨hmem, fun q hq => ?_⟩
    rcases List.mem_cons.mp hq with rfl | h''
    · exact hle
    · exact hall q h''

theorem foldl_min_head {α : Type} (rest : List (String × CacheEntry α)) :
    ∀ a : String × CacheEntry α, (∀ q ∈ rest, a.2.timestamp ≤ q.2.timestamp) →
      rest.foldl (fun best q => if q.2.timestamp < best.2.timestamp then q else best) a = a := by
  induction rest with
  | nil => intro a _; rfl
  | cons b t ih =>
    intro a h
    simp only [List.foldl_cons]
    rw [if_neg (not_lt_of_le (h b (List.mem_cons_self _ _)))]
    exact ih a (fun q hq => h q (List.mem_cons_of_mem _ hq))

theorem oldestEntry_head_of_min {α : Type} {a : String × CacheEntry α}
    {rest : List (String × CacheEntry α)}
    (h : ∀ q ∈ rest, a.2.timestamp ≤ q.2.timestamp) :
    oldestEntry (a :: rest) = some a := by
  rw [oldestEntry, foldl_min_head rest a h]

theorem nodup_append_singleton {β : Type} {l : List β} {a : β}
    (h : (l ++ [a]).Nodup) : a ∉ l := by
  intro hm
  rcases List.nodup_append.mp h with ⟨-, -, hdisj⟩
  exact hdisj hm (List.mem_singleton.mpr rfl)

theorem length_eraseP_mem {β : Type} {l : List β} {pred : β → Bool} {x : β}
    (hx : x ∈ l) (hp : pred x = true) : (l.eraseP pred).length + 1 = l.length := by
  induction l with
  | nil => cases hx
  | cons a t ih =>
    by_cases ha : pred a = true
    · simp [List.eraseP_cons, ha]
    · rcases List.mem_cons.mp hx with rfl | hx'
      · exact absurd hp ha
      · simp only [List.eraseP_cons, ha, cond_false, List.length_cons]
        simpa using ih hx'

theorem oldestEntry_eq_none {α : Type} {l : List (String × CacheEntry α)} :
    oldestEntry l = none ↔ l = [] := by
  cases l <;> simp [oldestEntry]

theorem cleanupOldest_length {α : Type} (c : OptimizedCache α) (hne : c.cache ≠ []) :
    c.cleanupOldest.cache.length + 1 = c.cache.length := by
  cases hOld : oldestEntry c.cache with
  | none => exact absurd (oldestEntry_eq_none.mp hOld) hne
  | some p =>
    simp only [OptimizedCache.cleanupOldest, hOld]
    obtain ⟨hmem, -⟩ := oldestEntry_spec hOld
    exact length_eraseP_mem hmem (by simp)

theorem setRaw_append_of_lookup_none {α : Type} {l : List (String × CacheEntry α)}
    {k : String} (e : CacheEntry α) (h : l.lookup k = none) :
    setRaw l k e = l ++ [(k, e)] := by
  simp [setRaw, any_key_false_of_lookup_none h]

theorem setRaw_length_le {α : Type} (l : List (String × CacheEntry α)) (k : String)
    (e : CacheEntry α) : (setRaw l k e).length ≤ l.length + 1 := by
  rw [setRaw]
  split
  · simp
  · simp

theorem set_length_le {α : Type} (c : OptimizedCache α) (k : String) (v : α) (now : ℚ)
    (h : c.cache.length ≤ c.maxsize) : (c.set k v now).cache.length ≤ c.maxsize := by
  simp only [OptimizedCache.set]
  split
  · next hgt =>
    have hne : (setRaw c.cache k ⟨v, now⟩) ≠ [] := by
      intro hnil
      rw [hnil] at hgt
      simp at hgt
    have hcl := cleanupOldest_length { c with cache := setRaw c.cache k ⟨v, now⟩ } hne
    have hsr := setRaw_length_le c.cache k ⟨v, now⟩
    simp only at hcl
    omega
  · next hng =>
    simp only [gt_iff_lt, not_lt] at hng
    exact hng

theorem set_evict {α : Type} (c : OptimizedCache α) (k : String) (v : α) (now : ℚ)
    (hfresh : c.cache.lookup k = none) (hfull : c.maxsize ≤ c.cache.length)
    (hnd : ((c.cache ++ [(k, CacheEntry.mk v now)]).map Prod.fst).Nodup) :
    ∃ l₁ l₂ e,
      c.cache ++ [(k, CacheEntry.mk v now)] = l₁ ++ e :: l₂ ∧
      (c.set k v now).cache = l₁ ++ l₂ ∧
      ∀ q ∈ c.cache ++ [(k, CacheEntry.mk v now)], e.2.timestamp ≤ q.2.timestamp := by
  have happ := setRaw_append_of_lookup_none (l := c.cache) (k := k) (CacheEntry.mk v now) hfresh
  have hgt : (c.cache ++ [(k, CacheEntry.mk v now)]).length > c.maxsize := by
    simp only [List.length_append, List.length_cons, List.length_nil]
    omega
  cases hOld : oldestEntry (c.cache ++ [(k, CacheEntry.mk v now)]) with
  | none =>
    rw [oldestEntry_eq_none] at hOld
    exact absurd hOld (by simp)
  | some p =>
    obtain ⟨hmem, hmin⟩ := oldestEntry_spec hOld
    obtain ⟨l₁, l₂, hdec, herase⟩ := eraseP_key_decomp hmem hnd
    refine ⟨l₁, l₂, p, hdec, ?_, hmin⟩
    simp only [OptimizedCache.set, happ, OptimizedCache.cleanupOldest, hOld]
    rw [if_pos hgt]
    exact herase

theorem cleanupOldest_maxsize {α : Type} (c : OptimizedCache α) :
    c.cleanupOldest.maxsize = c.maxsize := by
  rw [OptimizedCache.cleanupOldest]
  cases oldestEntry c.cache <;> rfl

theorem cleanupOldest_ttl {α : Type} (c : OptimizedCache α) :
    c.cleanupOldest.ttl = c.ttl := by
  rw [OptimizedCache.cleanupOldest]
  cases oldestEntry c.cache <;> rfl

theorem set_maxsize {α : Type} (c : OptimizedCache α) (k : String) (v : α) (now : ℚ) :
    (c.set k v now).maxsize = c.maxsize := by
  simp only [OptimizedCache.set]
  split
  · exact cleanupOldest_maxsize _
  · rfl

theorem set_ttl {α : Type} (c : OptimizedCache α) (k : String) (v : α) (now : ℚ) :
    (c.set k v now).ttl = c.ttl := by
  simp only [OptimizedCache.set]
  split
  · exact cleanupOldest_ttl _
  · rfl

theorem insertSeq_maxsize {α : Type} (items : List (String × α × ℚ)) :
    ∀ c : OptimizedCache α, (insertSeq c items).maxsize = c.maxsize := by
  induction items with
  | nil => intro c; rfl
  | cons x rest ih =>
    intro c
    obtain ⟨k, v, t⟩ := x
    rw [insertSeq, ih, set_maxsize]

theorem set_cache_fresh_small {α : Type} (c : OptimizedCache α) (k : String) (v : α)
    (now : ℚ) (hfresh : c.cache.lookup k = none) (hlt : c.cache.length < c.maxsize) :
    (c.set k v now).cache = c.cache ++ [(k, CacheEntry.mk v now)] := by
  have happ := setRaw_append_of_lookup_none (l := c.cache) (k := k) (CacheEntry.mk v now) hfresh
  simp only [OptimizedCache.set, happ]
  rw [if_neg]
  simp only [List.length_append, List.length_cons, List.length_nil, gt_iff_lt, not_lt]
  omega

theorem insertSeq_append {α : Type} (c : OptimizedCache α)
    (l : List (String × α × ℚ)) (x : String × α × ℚ) :
    insertSeq c (l ++ [x]) = (insertSeq c l).set x.1 x.2.1 x.2.2 := by
  induction l generalizing c with
  | nil =>
    obtain ⟨k, v, t⟩ := x
    rfl
  | cons y t ih =>
    obtain ⟨k, v, t'⟩ := y
    simp only [List.cons_append, insertSeq]
    exact ih (c.set k v t')

theorem insertSeq_small {α : Type} (maxsize : ℕ) (ttl : ℚ)
    (items : List (String × α × ℚ))
    (hnd : (items.map Prod.fst).Nodup) (hlen : items.length ≤ maxsize) :
    (insertSeq (emptyCache α maxsize ttl) items).cache = items.map entryOf := by
  induction items using List.reverseRecOn with
  | nil => rfl
  | append_singleton l x ih =>
    have hndl : (l.map Prod.fst).Nodup := by
      rw [List.map_append] at hnd
      exact hnd.sublist (List.sublist_append_left _ _)
    have hxl : x.1 ∉ l.map Prod.fst := by
      rw [List.map_append] at hnd
      exact nodup_append_singleton hnd
    have hlenl : l.length ≤ maxsize := by
      rw [List.length_append] at hlen
      omega
    have hcache := ih hndl hlenl
    have hfresh : (insertSeq (emptyCache α maxsize ttl) l).cache.lookup x.1 = none := by
      rw [hcache]
      apply lookup_none_of_not_mem_keys
      intro hm
      apply hxl
      rw [List.map_map] at hm
      have hcomp : (Prod.fst ∘ entryOf (α := α)) = Prod.fst := by
        funext y
        rfl
      rwa [hcomp] at hm
    have hlt : (insertSeq (emptyCache α maxsize ttl) l).cache.length <
        (insertSeq (emptyCache α maxsize ttl) l).maxsize := by
      rw [hcache, insertSeq_maxsize]
      simp only [List.length_map, emptyCache]
      rw [List.length_append] at hlen
      simp only [List.length_cons, List.length_nil] at hlen
      omega
    rw [insertSeq_append, set_cache_fresh_small _ _ _ _ hfresh hlt, hcache]
    simp [entryOf]

theorem insertSeq_capacity {α : Type} (maxsize : ℕ) (ttl : ℚ) (k₀ : String) (v₀ : α)
    (t₀ : ℚ) (rest : List (String × α × ℚ))
    (hnd : (((k₀, v₀, t₀) :: rest).map Prod.fst).Nodup)
    (hmono : List.Pairwise (fun a b => a.2.2 ≤ b.2.2) ((k₀, v₀, t₀) :: rest))
    (hlen : ((k₀, v₀, t₀) :: rest).length = maxsize + 1) :
    (insertSeq (emptyCache α maxsize ttl) ((k₀, v₀, t₀) :: rest)).cache.length = maxsize ∧
    (insertSeq (emptyCache α maxsize ttl) ((k₀, v₀, t₀) :: rest)).cache.lookup k₀ = none := by
  by_cases hrne : rest = []
  · subst hrne
    simp only [List.length_cons, List.length_nil] at hlen
    have hm0 : maxsize = 0 := by omega
    subst hm0
    constructor
    · simp [insertSeq, OptimizedCache.set, setRaw, OptimizedCache.cleanupOldest,
        oldestEntry, emptyCache, List.eraseP_cons]
    · simp [insertSeq, OptimizedCache.set, setRaw, OptimizedCache.cleanupOldest,
        oldestEntry, emptyCache, List.eraseP_cons, List.lookup]
  · have hsplit : rest.dropLast ++ [rest.getLast hrne] = rest :=
      List.dropLast_append_getLast hrne
    have hrlen : rest.length = maxsize := by
      simp only [List.length_cons] at hlen
      omega
    have hms1 : 1 ≤ maxsize := by
      have : 0 < rest.length := List.length_pos.mpr hrne
      omega
    have hndk : k₀ ∉ rest.map Prod.fst ∧ (rest.map Prod.fst).Nodup := by
      simpa [List.nodup_cons] using hnd
    have hndfront : (((k₀, v₀, t₀) :: rest.dropLast).map Prod.fst).Nodup := by
      have hsub : List.Sublist ((k₀, v₀, t₀) :: rest.dropLast) ((k₀, v₀, t₀) :: rest) :=
        List.Sublist.cons₂ _ (List.dropLast_sublist rest)
      exact hnd.sublist (hsub.map Prod.fst)
    have hfrontlen : ((k₀, v₀, t₀) :: rest.dropLast).length = maxsize := by
      simp only [List.length_cons, List.length_dropLast]
      omega
    have hAcache := insertSeq_small maxsize ttl ((k₀, v₀, t₀) :: rest.dropLast)
      hndfront (le_of_eq hfrontlen)
    have hAmax : (insertSeq (emptyCache α maxsize ttl) ((k₀, v₀, t₀) :: rest.dropLast)).maxsize
        = maxsize := insertSeq_maxsize _ _
    have hlastmem : rest.getLast hrne ∈ rest := List.getLast_mem hrne
    have hmapdec : rest.map Prod.fst = rest.dropLast.map Prod.fst ++ [(rest.getLast hrne).1] := by
      conv_lhs => rw [← hsplit]
      simp
    have hlastne : (rest.getLast hrne).1 ≠ k₀ := by
      intro hc
      exact hndk.1 (hc ▸ List.mem_map_of_mem Prod.fst hlastmem)
    have hlastnotfront : (rest.getLast hrne).1 ∉ ((k₀, v₀, t₀) :: rest.dropLast).map Prod.fst := by
      simp only [List.map_cons, List.mem_cons, not_or]
      refine ⟨hlastne, ?_⟩
      have := hndk.2
      rw [hmapdec] at this
      exact nodup_append_singleton this
    have hfresh : (insertSeq (emptyCache α maxsize ttl)
        ((k₀, v₀, t₀) :: rest.dropLast)).cache.lookup (rest.getLast hrne).1 = none := by
      rw [hAcache]
      apply lookup_none_of_not_mem_keys
      intro hm
      apply hlastnotfront
      rw [List.map_map] at hm
      have hcomp : (Prod.fst ∘ entryOf (α := α)) = Prod.fst := by
        funext y
        rfl
      rwa [hcomp] at hm
    have hitems : (k₀, v₀, t₀) :: rest
        = ((k₀, v₀, t₀) :: rest.dropLast) ++ [rest.getLast hrne] := by
      rw [List.cons_append, hsplit]
    have happA := setRaw_append_of_lookup_none
      (l := (insertSeq (emptyCache α maxsize ttl) ((k₀, v₀, t₀) :: rest.dropLast)).cache)
      (k := (rest.getLast hrne).1)
      (CacheEntry.mk (rest.getLast hrne).2.1 (rest.getLast hrne).2.2) hfresh
    have hnewl : (insertSeq (emptyCache α maxsize ttl) ((k₀, v₀, t₀) :: rest.dropLast)).cache
        ++ [((rest.getLast hrne).1,
            CacheEntry.mk (rest.getLast hrne).2.1 (rest.getLast hrne).2.2)]
        = entryOf (k₀, v₀, t₀) :: rest.map entryOf := by
      rw [hAcache]
      have : ((rest.getLast hrne).1,
          CacheEntry.mk (rest.getLast hrne).2.1 (rest.getLast hrne).2.2)
          = entryOf (rest.getLast hrne) := rfl
      rw [this, List.map_cons, List.cons_append]
      congr 1
      conv_rhs => rw [← hsplit]
      simp
    have hmin : ∀ q ∈ rest.map entryOf, (entryOf (α := α) (k₀, v₀, t₀)).2.timestamp
        ≤ q.2.timestamp := by
      intro q hq
      obtain ⟨b, hb, rfl⟩ := List.mem_map.mp hq
      exact (List.pairwise_cons.mp hmono).1 b hb
    have hOld : oldestEntry ((insertSeq (emptyCache α maxsize ttl)
        ((k₀, v₀, t₀) :: rest.dropLast)).cache
        ++ [((rest.getLast hrne).1,
            CacheEntry.mk (rest.getLast hrne).2.1 (rest.getLast hrne).2.2)])
        = some (entryOf (k₀, v₀, t₀)) := by
      rw [hnewl]
      exact oldestEntry_head_of_min hmin
    have hgtA : ((insertSeq (emptyCache α maxsize ttl)
        ((k₀, v₀, t₀) :: rest.dropLast)).cache
        ++ [((rest.getLast hrne).1,
            CacheEntry.mk (rest.getLast hrne).2.1 (rest.getLast hrne).2.2)]).length
        > (insertSeq (emptyCache α maxsize ttl) ((k₀, v₀, t₀) :: rest.dropLast)).maxsize := by
      rw [hAmax, hAcache]
      have hfl : rest.dropLast.length + 1 = maxsize := by
        simpa using hfrontlen
      simp only [List.length_append, List.length_map, List.length_cons, List.length_nil]
      omega
    have hfinal : (insertSeq (emptyCache α maxsize ttl) ((k₀, v₀, t₀) :: rest)).cache
        = rest.map entryOf := by
      rw [hitems, insertSeq_append]
      simp only [OptimizedCache.set, happA, OptimizedCache.cleanupOldest, hOld]
      rw [if_pos hgtA, hnewl]
      simp [List.eraseP_cons, entryOf]
    constructor
    · rw [hfinal]
      simp only [List.length_map]
      exact hrlen
    · rw [hfinal]
      apply lookup_none_of_not_mem_keys
      intro hm
      apply hndk.1
      rw [List.map_map] at hm
      have hcomp : (Prod.fst ∘ entryOf (α := α)) = Prod.fst := by
        funext y
        rfl
      rwa [hcomp] at hm

theorem round2_bounds (x : ℚ) :
    ∃ n : ℤ, round2 x = (n : ℚ) / 100 ∧ ⌊x * 100⌋ ≤ n ∧ n ≤ ⌊x * 100⌋ + 1 := by
  simp only [round2]
  split_ifs <;> exact ⟨_, rfl, by omega, by omega⟩

theorem round2_zero : round2 0 = 0 := by
  norm_num [round2]

theorem round2_ge_of_ge {x : ℚ} (h : (0.84 : ℚ) ≤ x) : (0.84 : ℚ) ≤ round2 x := by
  obtain ⟨n, heq, hlo, -⟩ := round2_bounds x
  rw [heq]
  have h84 : (84 : ℤ) ≤ ⌊x * 100⌋ := by
    apply Int.le_floor.mpr
    push_cast
    linarith
  have hn : (84 : ℚ) ≤ (n : ℚ) := by exact_mod_cast le_trans h84 hlo
  linarith

theorem relevanceKeywords_weight_ge :
    ∀ p ∈ relevanceKeywords, (0.7 : ℚ) ≤ p.2 := by
  intro p hp
  fin_cases hp <;> norm_num

theorem sum_map_snd_ge {l : List (String × ℚ)} (h : ∀ p ∈ l, (0.7 : ℚ) ≤ p.2) :
    (0.7 : ℚ) * l.length ≤ (l.map Prod.snd).sum := by
  induction l with
  | nil => simp
  | cons a t ih =>
    simp only [List.map_cons, List.sum_cons, List.length_cons]
    have ha := h a (List.mem_cons_self _ _)
    have ht := ih (fun p hp => h p (List.mem_cons_of_mem _ hp))
    have hc : (0.7 : ℚ) * (((t.length + 1 : ℕ)) : ℚ) = 0.7 * (t.length : ℚ) + 0.7 := by
      push_cast
      ring
    rw [hc]
    linarith

/-! ### Claim theorems -/

/-- C3: for every key and cache state, `OptimizedCache.get` returns the
stored value exactly when an entry is present with `now - written_at < ttl`;
when present but expired it deletes that entry and reports a miss (`none`,
i.e. the caller's default); when absent it reports a miss and leaves the
cache unchanged; and the surviving store is a sublist of the original, so a
read never rewrites any surviving entry's `written_at`. -/
theorem claim_C3_get_semantics {α : Type} (c : OptimizedCache α) (k : String) (now : ℚ) :
    (∀ v, (c.get k now).1 = some v ↔
      ∃ e, c.cache.lookup k = some e ∧ now - e.timestamp < c.ttl ∧ e.value = v)
    ∧ (∀ e, c.cache.lookup k = some e → c.ttl ≤ now - e.timestamp →
        c.get k now = (none, { c with cache := c.cache.eraseP (fun p => p.1 == k) }))
    ∧ (c.cache.lookup k = none → c.get k now = (none, c))
    ∧ List.Sublist (c.get k now).2.cache c.cache
    ∧ (c.get k now).2.ttl = c.ttl ∧ (c.get k now).2.maxsize = c.maxsize := by
  cases hl : c.cache.lookup k with
  | none =>
    refine ⟨?_, ?_, ?_, ?_, ?_, ?_⟩
    · intro v
      simp [OptimizedCache.get, hl]
    · intro e he
      cases he
    · intro _
      simp [OptimizedCache.get, hl]
    · simp only [OptimizedCache.get, hl]
      exact List.Sublist.refl _
    · simp [OptimizedCache.get, hl]
    · simp [OptimizedCache.get, hl]
  | some e =>
    by_cases ht : now - e.timestamp < c.ttl
    · refine ⟨?_, ?_, ?_, ?_, ?_, ?_⟩
      · intro v
        simp only [OptimizedCache.get, hl, if_pos ht]
        constructor
        · intro hv
          exact ⟨e, rfl, ht, Option.some.inj hv⟩
        · rintro ⟨e', he', ht', hv⟩
          injection he' with he''
          subst he''
          simp [hv]
      · intro e' he' hge
        injection he' with he''
        subst he''
        exact absurd hge (not_le.mpr ht)
      · intro hn
        cases hn
      · simp only [OptimizedCache.get, hl, if_pos ht]
        exact List.Sublist.refl _
      · simp [OptimizedCache.get, hl, if_pos ht]
      · simp [OptimizedCache.get, hl, if_pos ht]
    · refine ⟨?_, ?_, ?_, ?_, ?_, ?_⟩
      · intro v
        simp only [OptimizedCache.get, hl, if_neg ht]
        constructor
        · intro hv
          simp at hv
        · rintro ⟨e', he', ht', hv⟩
          injection he' with he''
          subst he''
          exact absurd ht' ht
      · intro e' he' hge
        injection he' with he''
        subst he''
        simp [OptimizedCache.get, hl, if_neg ht]
      · intro hn
        cases hn
      · simp only [OptimizedCache.get, hl, if_neg ht]
        exact List.eraseP_sublist _
      · simp [OptimizedCache.get, hl, if_neg ht]
      · simp [OptimizedCache.get, hl, if_neg ht]

/-- Witness for C3: a present, unexpired entry is returned. -/
theorem claim_C3_get_semantics_witness :
    ((OptimizedCache.mk [("k", CacheEntry.mk (5 : ℕ) 0)] 10 100).get "k" 50).1 = some 5 :=
  ((claim_C3_get_semantics (OptimizedCache.mk [("k", CacheEntry.mk (5 : ℕ) 0)] 10 100)
      "k" 50).1 5).mpr ⟨CacheEntry.mk 5 0, rfl, by norm_num, rfl⟩

/-- C4: (i) a `set` on a cache within capacity leaves it within capacity;
(ii) a fresh insert at (or beyond) capacity removes EXACTLY ONE entry, and
that entry has the smallest `written_at` among all stored entries (expired
or not); (iii) inserting `maxsize + 1` distinct keys in sequence (with
non-decreasing write times) into a fresh cache leaves exactly `maxsize`
entries with the first-written key absent. -/
theorem claim_C4_capacity_eviction {α : Type} :
    (∀ (c : OptimizedCache α) (k : String) (v : α) (now : ℚ),
      c.cache.length ≤ c.maxsize → (c.set k v now).cache.length ≤ c.maxsize)
    ∧ (∀ (c : OptimizedCache α) (k : String) (v : α) (now : ℚ),
        c.cache.lookup k = none → c.maxsize ≤ c.cache.length →
        ((c.cache ++ [(k, CacheEntry.mk v now)]).map Prod.fst).Nodup →
        ∃ l₁ l₂ e,
          c.cache ++ [(k, CacheEntry.mk v now)] = l₁ ++ e :: l₂ ∧
          (c.set k v now).cache = l₁ ++ l₂ ∧
          ∀ q ∈ c.cache ++ [(k, CacheEntry.mk v now)], e.2.timestamp ≤ q.2.timestamp)
    ∧ (∀ (maxsize : ℕ) (ttl : ℚ) (k₀ : String) (v₀ : α) (t₀ : ℚ)
        (rest : List (String × α × ℚ)),
        (((k₀, v₀, t₀) :: rest).map Prod.fst).Nodup →
        List.Pairwise (fun a b => a.2.2 ≤ b.2.2) ((k₀, v₀, t₀) :: rest) →
        ((k₀, v₀, t₀) :: rest).length = maxsize + 1 →
        (insertSeq (emptyCache α maxsize ttl) ((k₀, v₀, t₀) :: rest)).cache.length = maxsize ∧
        (insertSeq (emptyCache α maxsize ttl) ((k₀, v₀, t₀) :: rest)).cache.lookup k₀ = none) :=
  ⟨set_length_le, set_evict, insertSeq_capacity⟩

/-- Witness for C4: three distinct keys into a capacity-2 cache leave two
entries, with the first key gone. -/
theorem claim_C4_capacity_eviction_witness :
    (insertSeq (emptyCache ℕ 2 3600) [("a", 1, 0), ("b", 2, 1), ("c", 3, 2)]).cache.length = 2 ∧
    (insertSeq (emptyCache ℕ 2 3600) [("a", 1, 0), ("b", 2, 1), ("c", 3, 2)]).cache.lookup "a" = none :=
  claim_C4_capacity_eviction.2.2 2 3600 "a" 1 0 [("b", 2, 1), ("c", 3, 2)]
    (by decide) (by norm_num [List.pairwise_cons]) rfl

/-- C9: every weight in the fixed relevance vocabulary is at least `0.7`, so
the relevance score of any text is either exactly `0` (no vocabulary term
occurs in the lower-cased text) or at least `0.84` (= 0.7 * 1.2); hence the
quality gate's `relevance >= 0.5` holds iff at least one vocabulary term
occurs. -/
theorem claim_C9_relevance_dichotomy (s : String) :
    (∀ p ∈ relevanceKeywords, (0.7 : ℚ) ≤ p.2)
    ∧ ((matchedKeywords (pyLower s)).isEmpty = true →
        (calculateQualityMetrics s).relevance = 0)
    ∧ ((matchedKeywords (pyLower s)).isEmpty = false →
        (0.84 : ℚ) ≤ (calculateQualityMetrics s).relevance)
    ∧ ((1/2 : ℚ) ≤ (calculateQualityMetrics s).relevance ↔
        (matchedKeywords (pyLower s)).isEmpty = false) := by
  have hrel : (calculateQualityMetrics s).relevance
      = round2 (min (relevanceRaw (pyLower s) * 1.2) 1) := rfl
  have hzero : (matchedKeywords (pyLower s)).isEmpty = true →
      (calculateQualityMetrics s).relevance = 0 := by
    intro h
    have hraw : relevanceRaw (pyLower s) = 0 := by
      simp [relevanceRaw, h]
    rw [hrel, hraw]
    rw [show min ((0 : ℚ) * 1.2) 1 = 0 by norm_num]
    exact round2_zero
  have hbig : (matchedKeywords (pyLower s)).isEmpty = false →
      (0.84 : ℚ) ≤ (calculateQualityMetrics s).relevance := by
    intro hne
    have hAne : matchedKeywords (pyLower s) ≠ [] := by
      intro hc
      rw [hc] at hne
      cases hne
    have hw : ∀ p ∈ matchedKeywords (pyLower s), (0.7 : ℚ) ≤ p.2 :=
      fun p hp => relevanceKeywords_weight_ge p (List.mem_of_mem_filter hp)
    have hsum := sum_map_snd_ge hw
    have hLpos : (0 : ℚ) < ((matchedKeywords (pyLower s)).length : ℚ) := by
      have : 0 < (matchedKeywords (pyLower s)).length := List.length_pos.mpr hAne
      exact_mod_cast this
    have hraw : (0.7 : ℚ) ≤ relevanceRaw (pyLower s) := by
      simp only [relevanceRaw, hne, Bool.false_eq_true, if_false]
      rw [le_div_iff₀ hLpos]
      exact hsum
    rw [hrel]
    exact round2_ge_of_ge (le_min (by linarith) (by norm_num))
  refine ⟨relevanceKeywords_weight_ge, hzero, hbig, ?_, ?_⟩
  · intro hhalf
    cases hA : (matchedKeywords (pyLower s)).isEmpty
    · rfl
    · exfalso
      rw [hzero hA] at hhalf
      norm_num at hhalf
  · intro hne
    linarith [hbig hne]

/-- Witness for C9: a text containing the vocabulary term 요리 scores at
least `0.84`; a text containing none scores `0`. -/
theorem claim_C9_relevance_dichotomy_witness :
    (0.84 : ℚ) ≤ (calculateQualityMetrics "요리").relevance ∧
    (calculateQualityMetrics "zzz").relevance = 0 :=
  ⟨(claim_C9_relevance_dichotomy "요리").2.2.1 (by decide),
   (claim_C9_relevance_dichotomy "zzz").2.1 (by decide)⟩

/-- C5 counterexample: the claim says an admitted task "updates last_start,
and then executes the handler", which entails that after the run the shared
`last_start` equals the run's start time. In the source
(`async_handler.py:95-111`) `_last_request_time` is assigned only AFTER
`await self._handle_request(...)` returns, with the completion-time clock:
with `rate_limit = 10`, `last_start = 0`, admission at `t = 1/20` and a
successful handler taking `5` time units, `last_start` ends at `51/10`,
not at the start time `1/10`. -/
theorem claim_C5_counterexample :
    (processRequest 10 ⟨0, []⟩ (1/20) 5 (.ok emptyQuestionResult)).lastAfter
      ≠ (processRequest 10 ⟨0, []⟩ (1/20) 5 (.ok emptyQuestionResult)).execStart := by
  norm_num [processRequest]

/-- C5 amended: an admitted task compares the clock to the shared
`last_start` and sleeps out the remaining gap, so the handler body starts at
`max now (last_start + 1/rate_limit)`; it executes the handler FIRST and
only afterwards updates `last_start` — to the handler's COMPLETION time and
only on success (appending it to `_request_times`); a handler failure is
caught and returned as an error/status dict, leaving `last_start`
untouched; the semaphore slot is released on completion and failure alike. -/
theorem claim_C5_rate_limiter_amended (rateLimit : ℚ) (rl : RateLimiterState)
    (now dur : ℚ) (outcome : Except String ResultDict) (hrate : 0 < rateLimit) :
    (processRequest rateLimit rl now dur outcome).execStart
        = max now (rl.lastRequestTime + 1 / rateLimit)
    ∧ (∀ r, outcome = .ok r →
        (processRequest rateLimit rl now dur outcome).lastAfter
            = (processRequest rateLimit rl now dur outcome).execStart + dur
        ∧ (processRequest rateLimit rl now dur outcome).output = r
        ∧ (processRequest rateLimit rl now dur outcome).requestTimesAfter
            = rl.requestTimes
              ++ [(processRequest rateLimit rl now dur outcome).execStart + dur])
    ∧ (∀ e, outcome = .error e →
        (processRequest rateLimit rl now dur outcome).lastAfter = rl.lastRequestTime
        ∧ (processRequest rateLimit rl now dur outcome).output = requestErrorResult e
        ∧ (processRequest rateLimit rl now dur outcome).requestTimesAfter
            = rl.requestTimes)
    ∧ (processRequest rateLimit rl now dur outcome).slotReleased = true := by
  have hstart : (processRequest rateLimit rl now dur outcome).execStart
      = max now (rl.lastRequestTime + 1 / rateLimit) := by
    cases outcome <;>
    · simp only [processRequest]
      by_cases h : now - rl.lastRequestTime < 1 / rateLimit
      · rw [if_pos h, max_eq_right (by linarith)]
        ring
      · rw [if_neg h, max_eq_left (by linarith)]
        ring
  refine ⟨hstart, ?_, ?_, ?_⟩
  · rintro r rfl
    refine ⟨rfl, rfl, rfl⟩
  · rintro e rfl
    refine ⟨rfl, rfl, rfl⟩
  · cases outcome <;> rfl

/-- Witness for the amended C5 at `rate_limit = 10`, `last_start = 0`,
admission at `t = 1/20`. -/
theorem claim_C5_rate_limiter_amended_witness :
    (processRequest 10 ⟨0, []⟩ (1/20) 5 (.ok emptyQuestionResult)).execStart
      = max (1/20) (0 + 1/10)
    ∧ (processRequest 10 ⟨0, []⟩ (1/20) 5 (.ok emptyQuestionResult)).slotReleased = true :=
  ⟨(claim_C5_rate_limiter_amended 10 ⟨0, []⟩ (1/20) 5 (.ok emptyQuestionResult)
      (by norm_num)).1,
   (claim_C5_rate_limiter_amended 10 ⟨0, []⟩ (1/20) 5 (.ok emptyQuestionResult)
      (by norm_num)).2.2.2⟩

/-- C7: batch processing is positional and failure-isolating: the handler
batch converter keeps the input length, its `i`-th output is exactly the
conversion of the `i`-th outcome (a task result passes through, an
exception becomes an error-status entry in place), the entry at a position
depends only on that position's outcome (an exception elsewhere cannot
affect it), and `OptimizedRecipeRAG.process_batch` returns one result per
question. -/
theorem claim_C7_batch_order_isolation :
    (∀ (t : ℚ) (outcomes : List (Except String ResultDict)),
      (handlerBatchConvert t outcomes).length = outcomes.length)
    ∧ (∀ (t : ℚ) (outcomes : List (Except String ResultDict)) (i : ℕ),
        (handlerBatchConvert t outcomes)[i]? = (outcomes[i]?).map
          (fun o => match o with
            | .ok r => r
            | .error e => batchErrorEntry e t))
    ∧ (∀ (t : ℚ) (outcomes₁ outcomes₂ : List (Except String ResultDict)) (i j : ℕ),
        j ≠ i → outcomes₁[j]? = outcomes₂[j]? →
        (handlerBatchConvert t outcomes₁)[j]? = (handlerBatchConvert t outcomes₂)[j]?)
    ∧ (∀ (collab : Collab) (st : RAGState) (qs : List String) (tq : ℚ),
        (ragProcessBatch collab st qs tq).1.length = qs.length) := by
  have hpos : ∀ (t : ℚ) (outcomes : List (Except String ResultDict)) (i : ℕ),
      (handlerBatchConvert t outcomes)[i]? = (outcomes[i]?).map
        (fun o => match o with
          | .ok r => r
          | .error e => batchErrorEntry e t) := by
    intro t outcomes i
    simp [handlerBatchConvert]
  refine ⟨?_, hpos, ?_, ?_⟩
  · intro t outcomes
    simp [handlerBatchConvert]
  · intro t o₁ o₂ i j _ hj
    rw [hpos, hpos, hj]
  · intro collab st qs tq
    induction qs generalizing st with
    | nil => rfl
    | cons q rest ih =>
      simp only [ragProcessBatch, List.length_cons]
      rw [ih]

/-- Witness for C7: a failing sibling does not change the entry at another
position. -/
theorem claim_C7_batch_order_isolation_witness :
    (handlerBatchConvert 0 [.ok emptyQuestionResult, .error "x"])[0]?
      = (handlerBatchConvert 0 [.ok emptyQuestionResult, .ok emptyQuestionResult])[0]? :=
  claim_C7_batch_order_isolation.2.2.1 0
    [.ok emptyQuestionResult, .error "x"]
    [.ok emptyQuestionResult, .ok emptyQuestionResult] 1 0 (by decide) rfl

/-! ### Helper lemmas about the query entry points -/

theorem lookup_append_of_none {α : Type} {l l' : List (String × CacheEntry α)}
    {k : String} (h : l.lookup k = none) : (l ++ l').lookup k = l'.lookup k := by
  induction l with
  | nil => rfl
  | cons a t ih =>
    obtain ⟨k', e'⟩ := a
    by_cases hk : k = k'
    · subst hk
      simp [List.lookup] at h
    · simp only [List.cons_append, List.lookup, beq_false_of_ne hk] at h ⊢
      exact ih h

theorem set_lookup_self {α : Type} (c : OptimizedCache α) (k : String) (v : α)
    (now : ℚ) (hfresh : c.cache.lookup k = none) (hlt : c.cache.length < c.maxsize) :
    (c.set k v now).cache.lookup k = some ⟨v, now⟩ := by
  rw [set_cache_fresh_small c k v now hfresh hlt, lookup_append_of_none hfresh]
  simp [List.lookup]

theorem ask_gate_characterization (collab : Collab) (st : RAGState) (q : String)
    (t : ℚ) (a : String) (docs : List String) (rc : OptimizedCache CacheVal)
    (hget : st.responseCache.get (collab.md5hash q) t = (none, rc))
    (hqa : collab.qaInvoke q (getContext collab q) = .ok ⟨some a, docs⟩)
    (hne : a ≠ "") :
    (ask collab st q t).2.responseCache
      = (if (calculateQualityMetrics a).completeness ≥ 0.5
            ∧ (calculateQualityMetrics a).relevance ≥ 0.5
         then rc.set (collab.md5hash q) (.str a) t
         else rc)
    ∧ (ask collab st q t).1
      = ResultDict.mk (some (.str a)) (some 0) (some (calculateQualityMetrics a))
          (some "direct") none (some (getContext collab q).length) none none none := by
  by_cases hgate : (calculateQualityMetrics a).completeness ≥ 0.5
      ∧ (calculateQualityMetrics a).relevance ≥ 0.5
  · constructor
    · simp [ask, hget, askDirect, hqa, hne, hgate, recordMetrics]
    · simp [ask, hget, askDirect, hqa, hne, hgate]
  · constructor
    · simp [ask, hget, askDirect, hqa, hne, hgate, recordMetrics]
    · simp [ask, hget, askDirect, hqa, hne, hgate]

theorem ask_error_characterization (collab : Collab) (st : RAGState) (q : String)
    (t : ℚ) (e : String) (rc : OptimizedCache CacheVal)
    (hget : st.responseCache.get (collab.md5hash q) t = (none, rc))
    (hqa : collab.qaInvoke q (getContext collab q) = .error e) :
    (ask collab st q t).1 = syncErrorResult e
    ∧ (ask collab st q t).2.errorCount = st.errorCount + 1
    ∧ (ask collab st q t).2.requestCount = st.requestCount + 1
    ∧ (ask collab st q t).2.responseCache = rc := by
  refine ⟨?_, ?_, ?_, ?_⟩ <;> simp [ask, hget, askDirect, hqa]

theorem askAsync_direct_characterization (collab : Collab) (st : RAGState)
    (q : String) (t : ℚ) (a ctx : String) (docs : List String)
    (rc : OptimizedCache CacheVal) (st₂ : RAGState)
    (hq : pyStripEmpty q = false)
    (hchk : st.responseCache.containsKey (collab.md5hash q) t = (false, rc))
    (hctx : getContextAsync collab
        { st with requestCount := st.requestCount + 1, responseCache := rc } q t
      = (ctx, st₂))
    (hqa : collab.qaInvoke q ctx = .ok ⟨some a, docs⟩) :
    (askAsync collab st q t).2.responseCache
      = st₂.responseCache.set (collab.md5hash q)
          (.dict (ResultDict.mk (some (.str a)) (some 0)
            (some (calculateQualityMetrics a)) (some "direct") none none
            (some docs) none none)) t
    ∧ (askAsync collab st q t).1
      = ResultDict.mk (some (.str a)) (some 0) (some (calculateQualityMetrics a))
          (some "direct") none none (some docs) none none := by
  constructor <;> simp [askAsync, hq, hchk, hctx, hqa, recordMetrics]

theorem askAsync_error_characterization (collab : Collab) (st : RAGState)
    (q : String) (t : ℚ) (e ctx : String)
    (rc : OptimizedCache CacheVal) (st₂ : RAGState)
    (hq : pyStripEmpty q = false)
    (hchk : st.responseCache.containsKey (collab.md5hash q) t = (false, rc))
    (hctx : getContextAsync collab
        { st with requestCount := st.requestCount + 1, responseCache := rc } q t
      = (ctx, st₂))
    (hqa : collab.qaInvoke q ctx = .error e) :
    (askAsync collab st q t).1 = asyncErrorResult e
    ∧ (askAsync collab st q t).2.errorCount = st₂.errorCount + 1
    ∧ (askAsync collab st q t).2.responseCache = st₂.responseCache := by
  refine ⟨?_, ?_, ?_⟩ <;> simp [askAsync, hq, hchk, hctx, hqa]

theorem checkRelevance_state (collab : Collab) (st : RAGState) (content q : String)
    (t : ℚ) :
    (checkRelevance collab st content q t).2.errorCount = st.errorCount
    ∧ (checkRelevance collab st content q t).2.requestCount = st.requestCount
    ∧ (checkRelevance collab st content q t).2.responseCache = st.responseCache := by
  rcases h : (st.embeddingCache.get ("relevance_" ++ collab.md5hash (content ++ q)) t).1
    with _ | r <;> simp [checkRelevance, h]

theorem filterParts_state (collab : Collab) (q : String) (t : ℚ) :
    ∀ (docs seen : List String) (st : RAGState),
      (filterParts collab q t docs seen st).2.errorCount = st.errorCount
      ∧ (filterParts collab q t docs seen st).2.requestCount = st.requestCount := by
  intro docs
  induction docs with
  | nil => intro seen st; exact ⟨rfl, rfl⟩
  | cons doc rest ih =>
    intro seen st
    by_cases h1 : pyStrip doc ≠ "" ∧ ¬ (seen.contains (pyStrip doc) = true)
    · by_cases h2 : (checkRelevance collab st (pyStrip doc) q t).1 ≥ 0.3
      · simp only [filterParts, if_pos h1, if_pos h2]
        constructor
        · rw [(ih _ _).1, (checkRelevance_state collab st _ q t).1]
        · rw [(ih _ _).2, (checkRelevance_state collab st _ q t).2.1]
      · simp only [filterParts, if_pos h1, if_neg h2]
        constructor
        · rw [(ih _ _).1, (checkRelevance_state collab st _ q t).1]
        · rw [(ih _ _).2, (checkRelevance_state collab st _ q t).2.1]
    · simp only [filterParts, if_neg h1]
      exact ih _ _

theorem getContextAsync_counters (collab : Collab) (st : RAGState) (q : String)
    (t : ℚ) :
    (getContextAsync collab st q t).2.errorCount = st.errorCount
    ∧ (getContextAsync collab st q t).2.requestCount = st.requestCount := by
  rcases hchk : st.responseCache.containsKey ("context_" ++ collab.md5hash q) t
    with ⟨b, rc⟩
  cases b
  · cases hs : collab.similaritySearch q with
    | error e => simp [getContextAsync, hchk, hs]
    | ok docs =>
      have hfp := filterParts_state collab q t docs []
        { st with responseCache := rc }
      constructor <;> simp [getContextAsync, hchk, hs, hfp.1, hfp.2]
  · rcases hg : (rc.getItem ("context_" ++ collab.md5hash q) t).1 with _ | v
    · simp [getContextAsync, hchk, hg]
    · cases v <;> simp [getContextAsync, hchk, hg]

theorem calcMetrics_hello : calculateQualityMetrics "hello" = zeroMetrics := by
  have hmk : matchedKeywords (pyLower "hello") = [] := by decide
  have e1 : strContains (pyLower "hello") "재료" = false := by decide
  have e2 : strContains (pyLower "hello") "준비물" = false := by decide
  have e3 : strContains (pyLower "hello") "필요한" = false := by decide
  have e4 : strContains (pyLower "hello") "있어야" = false := by decide
  have e5 : strContains (pyLower "hello") "조리" = false := by decide
  have e6 : strContains (pyLower "hello") "만들기" = false := by decide
  have e7 : strContains (pyLower "hello") "요리" = false := by decide
  have e8 : strContains (pyLower "hello") "방법" = false := by decide
  have e9 : strContains (pyLower "hello") "과정" = false := by decide
  have e10 : strContains (pyLower "hello") "팁" = false := by decide
  have e11 : strContains (pyLower "hello") "주의" = false := by decide
  have e12 : strContains (pyLower "hello") "포인트" = false := by decide
  have e13 : strContains (pyLower "hello") "중요" = false := by decide
  have e14 : strContains (pyLower "hello") "비법" = false := by decide
  have hd : hasDigitEnum (pyLower "hello").data = false := by decide
  have hb : hasBulletChar (pyLower "hello").data = false := by decide
  have hp : (splitParas (pyLower "hello").data []).length = 1 := by decide
  have h1 : completenessRaw (pyLower "hello") = 0 := by
    norm_num [completenessRaw, requiredSections, e1, e2, e3, e4, e5, e6, e7, e8, e9,
      e10, e11, e12, e13, e14]
  have h2 : relevanceRaw (pyLower "hello") = 0 := by
    simp [relevanceRaw, hmk]
  have h3 : structurePoints (pyLower "hello") = 0 := by
    norm_num [structurePoints, hd, hb, hp]
  simp only [calculateQualityMetrics, h1, h2, h3, zeroMetrics]
  rw [show min ((0 : ℚ) * 1.2) 1 = 0 by norm_num, show min (0 : ℚ) 1 = 0 by norm_num,
    round2_zero]

/-- C1 counterexample: under `ask_async` a successfully generated non-empty
answer that scores BELOW the quality gate (completeness 0 < 0.5) is cached
anyway, and a second identical question retrieves it with
`source = 'cache'` — refuting "an answer scoring below the gate ... is never
cached, so a subsequent identical question cannot retrieve it with
source=cache". -/
theorem claim_C1_counterexample :
    (calculateQualityMetrics "hello").completeness < 1/2
    ∧ ((askAsync (hashCollab (fun _ _ => .ok ⟨some "hello", []⟩))
        ((askAsync (hashCollab (fun _ _ => .ok ⟨some "hello", []⟩))
          initialState "q" 0).2) "q" 1).1).source = some "cache" := by
  have hqs : pyStripEmpty "q" = false := by decide
  have h1 := askAsync_direct_characterization
    (hashCollab (fun _ _ => .ok ⟨some "hello", []⟩)) initialState "q" 0
    "hello" "" [] initialState.responseCache
    { initialState with
        requestCount := 1
        responseCache := OptimizedCache.mk
          [("context_hq", CacheEntry.mk (CacheVal.str "") 0)] 5000 7200 }
    hqs rfl rfl rfl
  have hcache1 : (askAsync (hashCollab (fun _ _ => .ok ⟨some "hello", []⟩))
      initialState "q" 0).2.responseCache
      = OptimizedCache.mk
          [("context_hq", CacheEntry.mk (CacheVal.str "") 0),
           ("hq", CacheEntry.mk (CacheVal.dict (ResultDict.mk
             (some (.str "hello")) (some 0)
             (some (calculateQualityMetrics "hello")) (some "direct") none none
             (some []) none none)) 0)] 5000 7200 := by
    rw [h1.1]
    rfl
  have hlk : List.lookup "hq"
      [("context_hq", CacheEntry.mk (CacheVal.str "") 0),
       ("hq", CacheEntry.mk (CacheVal.dict (ResultDict.mk
         (some (.str "hello")) (some 0)
         (some (calculateQualityMetrics "hello")) (some "direct") none none
         (some []) none none)) 0)]
      = some (CacheEntry.mk (CacheVal.dict (ResultDict.mk
          (some (.str "hello")) (some 0)
          (some (calculateQualityMetrics "hello")) (some "direct") none none
          (some []) none none)) 0) := rfl
  have hchk2 : (askAsync (hashCollab (fun _ _ => .ok ⟨some "hello", []⟩))
      initialState "q" 0).2.responseCache.containsKey "hq" 1
      = (true, (askAsync (hashCollab (fun _ _ => .ok ⟨some "hello", []⟩))
          initialState "q" 0).2.responseCache) := by
    rw [hcache1]
    simp only [OptimizedCache.containsKey, hlk]
    norm_num
  have hgi2 : ((askAsync (hashCollab (fun _ _ => .ok ⟨some "hello", []⟩))
      initialState "q" 0).2.responseCache.getItem "hq" 1).1
      = some (CacheVal.dict (ResultDict.mk
          (some (.str "hello")) (some 0)
          (some (calculateQualityMetrics "hello")) (some "direct") none none
          (some []) none none)) := by
    rw [hcache1]
    simp only [OptimizedCache.getItem, hlk]
    norm_num
  refine ⟨by norm_num [calcMetrics_hello, zeroMetrics], ?_⟩
  have hmd : (hashCollab (fun _ _ => .ok ⟨some "hello", []⟩)).md5hash "q" = "hq" := rfl
  generalize hG : (askAsync (hashCollab (fun _ _ => .ok ⟨some "hello", []⟩))
      initialState "q" 0).2 = st1 at hchk2 hgi2 ⊢
  rcases hgi : st1.responseCache.getItem "hq" 1 with ⟨vOpt, rc2⟩
  have hv : vOpt = some (CacheVal.dict (ResultDict.mk
      (some (.str "hello")) (some 0)
      (some (calculateQualityMetrics "hello")) (some "direct") none none
      (some []) none none)) := by
    rw [← hgi2, hgi]
  subst hv
  simp [askAsync, hqs, hmd, hchk2, hgi, ResultDict.withCacheHit, ResultDict.source]

/-- C1 amended: only the synchronous `ask` gates the answer-cache write on
`completeness >= 0.5 and relevance >= 0.5`; the awaitable `ask_async`
writes every successfully generated answer unconditionally (so a below-gate
answer IS retrievable by a later identical question with `source=cache`,
as the counterexample computes). -/
theorem claim_C1_quality_gate_amended :
    (∀ (collab : Collab) (st : RAGState) (q : String) (t : ℚ) (a : String)
      (docs : List String) (rc : OptimizedCache CacheVal),
      st.responseCache.get (collab.md5hash q) t = (none, rc) →
      collab.qaInvoke q (getContext collab q) = .ok ⟨some a, docs⟩ →
      a ≠ "" →
      (ask collab st q t).2.responseCache
        = (if (calculateQualityMetrics a).completeness ≥ 0.5
              ∧ (calculateQualityMetrics a).relevance ≥ 0.5
           then rc.set (collab.md5hash q) (.str a) t
           else rc))
    ∧ (∀ (collab : Collab) (st : RAGState) (q : String) (t : ℚ) (a ctx : String)
        (docs : List String) (rc : OptimizedCache CacheVal) (st₂ : RAGState),
        pyStripEmpty q = false →
        st.responseCache.containsKey (collab.md5hash q) t = (false, rc) →
        getContextAsync collab
          { st with requestCount := st.requestCount + 1, responseCache := rc } q t
          = (ctx, st₂) →
        collab.qaInvoke q ctx = .ok ⟨some a, docs⟩ →
        (askAsync collab st q t).2.responseCache
          = st₂.responseCache.set (collab.md5hash q)
              (.dict (ResultDict.mk (some (.str a)) (some 0)
                (some (calculateQualityMetrics a)) (some "direct") none none
                (some docs) none none)) t) := by
  constructor
  · intro collab st q t a docs rc hget hqa hne
    exact (ask_gate_characterization collab st q t a docs rc hget hqa hne).1
  · intro collab st q t a ctx docs rc st₂ hq hchk hctx hqa
    exact (askAsync_direct_characterization collab st q t a ctx docs rc st₂
      hq hchk hctx hqa).1

/-- Witness for the amended C1: the sync path at a below-gate answer. -/
theorem claim_C1_quality_gate_amended_witness :
    (ask (hashCollab (fun _ _ => .ok ⟨some "hello", []⟩)) initialState "q" 0).2.responseCache
      = (if (calculateQualityMetrics "hello").completeness ≥ 0.5
            ∧ (calculateQualityMetrics "hello").relevance ≥ 0.5
         then initialState.responseCache.set
            ((hashCollab (fun _ _ => .ok ⟨some "hello", []⟩)).md5hash "q")
            (.str "hello") 0
         else initialState.responseCache) :=
  claim_C1_quality_gate_amended.1 (hashCollab (fun _ _ => .ok ⟨some "hello", []⟩))
    initialState "q" 0 "hello" [] initialState.responseCache rfl rfl (by decide)

/-- C2 counterexample: the claim says the SYNCHRONOUS path caches every
successfully generated answer unconditionally. In the source it is the sync
path that gates on quality (`rag_engine.py:554-557`): a successful direct
answer scoring completeness 0 is returned with `source = 'direct'` but the
answer cache stays empty. -/
theorem claim_C2_counterexample :
    (ask (hashCollab (fun _ _ => .ok ⟨some "hello", []⟩)) initialState "q" 0).1.source
      = some "direct"
    ∧ (ask (hashCollab (fun _ _ => .ok ⟨some "hello", []⟩))
        initialState "q" 0).2.responseCache.cache = [] := by
  have h := ask_gate_characterization (hashCollab (fun _ _ => .ok ⟨some "hello", []⟩))
    initialState "q" 0 "hello" [] initialState.responseCache rfl rfl (by decide)
  constructor
  · rw [h.2]
    rfl
  · rw [h.1, if_neg]
    · rfl
    · norm_num [calcMetrics_hello, zeroMetrics]

/-- C2 amended: the roles are the opposite of the claim — the synchronous
`ask` is the path that gates the answer-cache write on
`completeness >= 0.5 and relevance >= 0.5` (no write below the gate, a write
at or above it), while the non-blocking `ask_async` caches every
successfully generated answer unconditionally. -/
theorem claim_C2_sync_async_swap_amended :
    (∀ (collab : Collab) (st : RAGState) (q : String) (t : ℚ) (a : String)
      (docs : List String) (rc : OptimizedCache CacheVal),
      st.responseCache.get (collab.md5hash q) t = (none, rc) →
      collab.qaInvoke q (getContext collab q) = .ok ⟨some a, docs⟩ →
      a ≠ "" →
      ¬ ((calculateQualityMetrics a).completeness ≥ 0.5
          ∧ (calculateQualityMetrics a).relevance ≥ 0.5) →
      (ask collab st q t).2.responseCache = rc)
    ∧ (∀ (collab : Collab) (st : RAGState) (q : String) (t : ℚ) (a : String)
        (docs : List String) (rc : OptimizedCache CacheVal),
        st.responseCache.get (collab.md5hash q) t = (none, rc) →
        collab.qaInvoke q (getContext collab q) = .ok ⟨some a, docs⟩ →
        a ≠ "" →
        (calculateQualityMetrics a).completeness ≥ 0.5 →
        (calculateQualityMetrics a).relevance ≥ 0.5 →
        (ask collab st q t).2.responseCache = rc.set (collab.md5hash q) (.str a) t)
    ∧ (∀ (collab : Collab) (st : RAGState) (q : String) (t : ℚ) (a ctx : String)
        (docs : List String) (rc : OptimizedCache CacheVal) (st₂ : RAGState),
        pyStripEmpty q = false →
        st.responseCache.containsKey (collab.md5hash q) t = (false, rc) →
        getContextAsync collab
          { st with requestCount := st.requestCount + 1, responseCache := rc } q t
          = (ctx, st₂) →
        collab.qaInvoke q ctx = .ok ⟨some a, docs⟩ →
        st₂.responseCache.cache.lookup (collab.md5hash q) = none →
        st₂.responseCache.cache.length < st₂.responseCache.maxsize →
        (askAsync collab st q t).2.responseCache.cache.lookup (collab.md5hash q)
          = some (CacheEntry.mk (CacheVal.dict (ResultDict.mk (some (.str a)) (some 0)
              (some (calculateQualityMetrics a)) (some "direct") none none
              (some docs) none none)) t)) := by
  refine ⟨?_, ?_, ?_⟩
  · intro collab st q t a docs rc hget hqa hne hgate
    rw [(ask_gate_characterization collab st q t a docs rc hget hqa hne).1, if_neg hgate]
  · intro collab st q t a docs rc hget hqa hne hg1 hg2
    rw [(ask_gate_characterization collab st q t a docs rc hget hqa hne).1,
      if_pos ⟨hg1, hg2⟩]
  · intro collab st q t a ctx docs rc st₂ hq hchk hctx hqa hfresh hlt
    rw [(askAsync_direct_characterization collab st q t a ctx docs rc st₂
      hq hchk hctx hqa).1]
    exact set_lookup_self _ _ _ _ hfresh hlt

/-- Witness for the amended C2: the sync path skips the cache write for a
below-gate answer. -/
theorem claim_C2_sync_async_swap_amended_witness :
    (ask (hashCollab (fun _ _ => .ok ⟨some "hello", []⟩))
      initialState "q" 0).2.responseCache = initialState.responseCache :=
  claim_C2_sync_async_swap_amended.1 (hashCollab (fun _ _ => .ok ⟨some "hello", []⟩))
    initialState "q" 0 "hello" [] initialState.responseCache rfl rfl (by decide)
    (by norm_num [calcMetrics_hello, zeroMetrics])

/-- C6 counterexample: the claim says a failing query returns a result
carrying `source=error` from Ask. The synchronous `ask`'s `except` clause
(`rag_engine.py:562-571`) builds its error dict WITHOUT any `source` key:
with a QA backend that raises, the returned dict's `source` is absent. -/
theorem claim_C6_counterexample :
    (ask (hashCollab (fun _ _ => .error "boom")) initialState "q" 0).1.source = none := by
  have h := ask_error_characterization (hashCollab (fun _ _ => .error "boom"))
    initialState "q" 0 "boom" initialState.responseCache rfl rfl
  rw [h.1]
  rfl

/-- C6 amended: exceptions raised during fetch/generation never propagate
(the entry points are total); both paths increment the error counter, zero
the quality metrics, and report the failure message in `error` — but only
the awaitable path's error dict carries `source = 'error'`; the synchronous
`ask`'s error dict has NO `source` key at all. -/
theorem claim_C6_error_result_amended :
    (∀ (collab : Collab) (st : RAGState) (q : String) (t : ℚ) (e : String)
      (rc : OptimizedCache CacheVal),
      st.responseCache.get (collab.md5hash q) t = (none, rc) →
      collab.qaInvoke q (getContext collab q) = .error e →
      (ask collab st q t).1 = syncErrorResult e
      ∧ (ask collab st q t).2.errorCount = st.errorCount + 1)
    ∧ (∀ e, (syncErrorResult e).error = some e
        ∧ (syncErrorResult e).qualityMetrics = some zeroMetrics
        ∧ (syncErrorResult e).source = none)
    ∧ (∀ (collab : Collab) (st : RAGState) (q : String) (t : ℚ) (e ctx : String)
        (rc : OptimizedCache CacheVal) (st₂ : RAGState),
        pyStripEmpty q = false →
        st.responseCache.containsKey (collab.md5hash q) t = (false, rc) →
        getContextAsync collab
          { st with requestCount := st.requestCount + 1, responseCache := rc } q t
          = (ctx, st₂) →
        collab.qaInvoke q ctx = .error e →
        (askAsync collab st q t).1 = asyncErrorResult e
        ∧ (askAsync collab st q t).2.errorCount = st.errorCount + 1)
    ∧ (∀ e, (asyncErrorResult e).source = some "error"
        ∧ (asyncErrorResult e).error = some e
        ∧ (asyncErrorResult e).qualityMetrics = some zeroMetrics) := by
  refine ⟨?_, ?_, ?_, ?_⟩
  · intro collab st q t e rc hget hqa
    have h := ask_error_characterization collab st q t e rc hget hqa
    exact ⟨h.1, h.2.1⟩
  · intro e
    exact ⟨rfl, rfl, rfl⟩
  · intro collab st q t e ctx rc st₂ hq hchk hctx hqa
    have h := askAsync_error_characterization collab st q t e ctx rc st₂ hq hchk hctx hqa
    refine ⟨h.1, ?_⟩
    have hc := (getContextAsync_counters collab
      { st with requestCount := st.requestCount + 1, responseCache := rc } q t).1
    rw [hctx] at hc
    simp only at hc
    rw [h.2.1, hc]
  · intro e
    exact ⟨rfl, rfl, rfl⟩

/-- Witness for the amended C6: the sync path at a failing backend. -/
theorem claim_C6_error_result_amended_witness :
    (ask (hashCollab (fun _ _ => .error "boom")) initialState "q" 0).1
      = syncErrorResult "boom"
    ∧ (ask (hashCollab (fun _ _ => .error "boom")) initialState "q" 0).2.errorCount = 1 :=
  claim_C6_error_result_amended.1 (hashCollab (fun _ _ => .error "boom"))
    initialState "q" 0 "boom" initialState.responseCache rfl rfl

theorem askDirect_requestCount (collab : Collab) (st₁ : RAGState) (q ckey : String)
    (t : ℚ) : (askDirect collab st₁ q ckey t).2.requestCount = st₁.requestCount := by
  cases hqa : collab.qaInvoke q (getContext collab q) with
  | error e => simp [askDirect, hqa]
  | ok resp =>
    by_cases hne : resp.answer.getD "" = ""
    · simp [askDirect, hqa, hne]
    · by_cases hg : (calculateQualityMetrics (resp.answer.getD "")).completeness ≥ 0.5
          ∧ (calculateQualityMetrics (resp.answer.getD "")).relevance ≥ 0.5
      · simp [askDirect, hqa, hne, hg, recordMetrics]
      · simp [askDirect, hqa, hne, hg, recordMetrics]

theorem ask_requestCount (collab : Collab) (st : RAGState) (q : String) (t : ℚ) :
    (ask collab st q t).2.requestCount = st.requestCount + 1 := by
  rcases hget : st.responseCache.get (collab.md5hash q) t with ⟨vOpt, rc⟩
  cases vOpt with
  | none => simp [ask, hget, askDirect_requestCount]
  | some v =>
    by_cases hv : v.pyTruthy
    · simp [ask, hget, hv]
    · simp [ask, hget, hv, askDirect_requestCount]

/-- C8 counterexample: the claim says BOTH entry points return
`source=empty` for a blank question before the cache lookup, incrementing
`request_count`. In the source, the synchronous `ask` has no blank-question
check at all — `ask("")` runs the whole pipeline and returns
`source='direct'` under a successful backend — and the awaitable form
returns its `source='empty'` dict BEFORE `request_count += 1`, so the
counter stays 0. -/
theorem claim_C8_counterexample :
    (ask (hashCollab (fun _ _ => .ok ⟨some "hello", []⟩)) initialState "" 0).1.source
      = some "direct"
    ∧ (askAsync (hashCollab (fun _ _ => .ok ⟨some "hello", []⟩))
        initialState "" 0).2.requestCount = 0 := by
  constructor
  · have h := ask_gate_characterization (hashCollab (fun _ _ => .ok ⟨some "hello", []⟩))
      initialState "" 0 "hello" [] initialState.responseCache rfl rfl (by decide)
    rw [h.2]
    rfl
  · have he : askAsync (hashCollab (fun _ _ => .ok ⟨some "hello", []⟩))
        initialState "" 0 = (emptyQuestionResult, initialState) := by
      simp [askAsync, show pyStripEmpty "" = true from rfl]
    rw [he]
    rfl

/-- C8 amended: only the awaitable `ask_async` short-circuits on an empty or
whitespace-only question; it does so BEFORE incrementing `request_count`
(the state is returned untouched) and without consulting the cache or any
collaborator (the result does not depend on the collaborators at all); the
synchronous `ask` has no such check and increments `request_count` on every
call, blank or not. -/
theorem claim_C8_empty_question_amended :
    (∀ (collab : Collab) (st : RAGState) (q : String) (t : ℚ),
      pyStripEmpty q = true → askAsync collab st q t = (emptyQuestionResult, st))
    ∧ emptyQuestionResult.source = some "empty"
    ∧ (∀ (collab : Collab) (st : RAGState) (q : String) (t : ℚ),
        (ask collab st q t).2.requestCount = st.requestCount + 1) := by
  refine ⟨?_, rfl, ask_requestCount⟩
  intro collab st q t hq
  simp [askAsync, hq]

/-- Witness for the amended C8: a whitespace-only question leaves the state
untouched, for any collaborator. -/
theorem claim_C8_empty_question_amended_witness :
    askAsync (hashCollab (fun _ _ => .error "never")) initialState "   " 0
      = (emptyQuestionResult, initialState) :=
  claim_C8_empty_question_amended.1 (hashCollab (fun _ _ => .error "never"))
    initialState "   " 0 (by decide)

/-- C10: the context-fetch path keeps retrieved contexts in the ANSWER cache
(`response_cache`), under keys `"context_" + md5(question)`: a context-cache
hit reads the answer cache (bumping `cache_hits`) and never touches the
embedding cache; a context-cache miss writes the retrieved context back into
the answer cache under that key, and the embedding cache changes only
through the relevance scorer, never to store a context. Because contexts and
answers share that single `OptimizedCache` instance and its capacity/TTL
budget, a context write at capacity evicts the oldest answer entry, and an
answer write at capacity evicts the oldest context entry (both computed
below on capacity-1 caches). -/
theorem claim_C10_shared_context_answer_cache :
    (∀ (collab : Collab) (st : RAGState) (q : String) (t : ℚ) (s : String)
      (rc : OptimizedCache CacheVal),
      st.responseCache.containsKey ("context_" ++ collab.md5hash q) t = (true, rc) →
      (rc.getItem ("context_" ++ collab.md5hash q) t).1 = some (.str s) →
      (getContextAsync collab st q t).1 = s
      ∧ (getContextAsync collab st q t).2.cacheHits = st.cacheHits + 1
      ∧ (getContextAsync collab st q t).2.embeddingCache = st.embeddingCache)
    ∧ (∀ (collab : Collab) (st : RAGState) (q : String) (t : ℚ)
        (docs : List String) (rc : OptimizedCache CacheVal),
        st.responseCache.containsKey ("context_" ++ collab.md5hash q) t = (false, rc) →
        collab.similaritySearch q = .ok docs →
        ∃ ctxv, (getContextAsync collab st q t).1 = ctxv
          ∧ (getContextAsync collab st q t).2.responseCache
            = (filterParts collab q t docs []
                { st with responseCache := rc }).2.responseCache.set
                ("context_" ++ collab.md5hash q) (.str ctxv) t
          ∧ (getContextAsync collab st q t).2.embeddingCache
            = (filterParts collab q t docs []
                { st with responseCache := rc }).2.embeddingCache)
    ∧ ((getContextAsync (hashCollab (fun _ _ => .error "x"))
        { initialState with
            responseCache :=
              OptimizedCache.mk [("ha", CacheEntry.mk (CacheVal.str "ans") 0)] 1 7200 }
        "q" 1).2.responseCache.cache
        = [("context_hq", CacheEntry.mk (CacheVal.str "") 1)])
    ∧ (((OptimizedCache.mk [("context_hq", CacheEntry.mk (CacheVal.str "") 0)] 1 7200).set
          "ha" (CacheVal.str "ans") 1).cache
        = [("ha", CacheEntry.mk (CacheVal.str "ans") 1)]) := by
  refine ⟨?_, ?_, ?_, ?_⟩
  · intro collab st q t s rc hchk hgi
    refine ⟨?_, ?_, ?_⟩ <;> simp [getContextAsync, hchk, hgi]
  · intro collab st q t docs rc hchk hs
    refine ⟨(getContextAsync collab st q t).1, rfl, ?_, ?_⟩ <;>
      simp [getContextAsync, hchk, hs]
  · have hkey : ("context_" ++ ("h" ++ "q") : String) = "context_hq" := rfl
    have hk : List.lookup "context_hq"
        [("ha", CacheEntry.mk (CacheVal.str "ans") 0)] = none := rfl
    have hbe : (("ha" : String) == "context_hq") = false := rfl
    have hlen : ("" : String).length = 0 := rfl
    norm_num [getContextAsync, OptimizedCache.containsKey, hashCollab, hkey, hk,
      hbe, hlen, filterParts, joinNN, truncate1500, OptimizedCache.set, setRaw,
      OptimizedCache.cleanupOldest, oldestEntry, List.eraseP]
  · have h1 : ¬ (("context_hq" : String) = "ha") := by decide
    have h2 : (("context_hq" : String) == "ha") = false := rfl
    have h3 : (("context_hq" : String) == "context_hq") = true := rfl
    norm_num [OptimizedCache.set, setRaw, OptimizedCache.cleanupOldest,
      oldestEntry, List.eraseP, h1, h2, h3]

/-- Witness for C10: a context-cache hit at a concrete state reads the
stored context from the answer cache. -/
theorem claim_C10_shared_context_answer_cache_witness :
    (getContextAsync (hashCollab (fun _ _ => .error "x"))
      { initialState with
          responseCache :=
            OptimizedCache.mk [("context_hq", CacheEntry.mk (CacheVal.str "ctx") 0)] 5000 7200 }
      "q" 1).1
      = "ctx" :=
  (claim_C10_shared_context_answer_cache.1 (hashCollab (fun _ _ => .error "x"))
    { initialState with
        responseCache :=
          OptimizedCache.mk [("context_hq", CacheEntry.mk (CacheVal.str "ctx") 0)] 5000 7200 }
    "q" 1 "ctx"
    (OptimizedCache.mk [("context_hq", CacheEntry.mk (CacheVal.str "ctx") 0)] 5000 7200)
    (by rw [show "context_" ++ (hashCollab (fun _ _ => .error "x")).md5hash "q"
          = "context_hq" from rfl]
        norm_num [OptimizedCache.containsKey, List.lookup])
    (by rw [show "context_" ++ (hashCollab (fun _ _ => .error "x")).md5hash "q"
          = "context_hq" from rfl]
        norm_num [OptimizedCache.getItem, List.lookup])).1
